import Mathlib

/-!
Verification development for the shopify-graphql-linter core pipeline.

The Python sources under src/shopify_query_analyzer are shallowly embedded:
  * analyzer.py    : Issue, QueryAnalysisResult, QueryAnalyzer.analyze (the external
                     graphql-core capability - parse / validate / deprecation traversal -
                     is abstracted as a record of functions, as the spec treats it as an
                     external collaborator);
  * diff.py        : DiffCategory, DiffItem, DiffSummary, DiffResult, VersionDiffer;
  * extractors/    : ExtractedQuery, PHPExtractor.extract, TypescriptExtractor
                     (parse_imports, build_fragment_map, resolve_interpolations, extract).
Python strings are List Char, Python ints are Int (counts that are only ever
incremented from 0 are Nat), Python dicts are insertion-ordered association lists
with value overwrite on duplicate keys, Python sets are lists used only through
membership.  Regular-expression matching is embedded by bespoke scanners that follow
the concrete patterns of the source (each one deterministic after the usual
greedy/lazy analysis; the relevant backtracking cases are noted inline).
A `re.Match.group i` call is fallible (IndexError on a missing group), so group
access returns Except, and functions of the source that can hit it are Except-valued.
-/

deriving instance DecidableEq for Except

set_option maxRecDepth 1000000

namespace SQA

/-! ## Generic helpers: insertion-ordered dict and small list utilities -/

/-- Python dict assignment `m[k] = v`: overwrite in place if the key exists
(keeping its original position), otherwise append. -/
def insertFM {α β : Type} [DecidableEq α] : List (α × β) → α → β → List (α × β)
  | [], k, v => [(k, v)]
  | (k', v') :: rest, k, v =>
      if k' = k then (k', v) :: rest else (k', v') :: insertFM rest k v

/-- Python dict lookup `m.get(k)`. -/
def lookupFM {α β : Type} [DecidableEq α] : List (α × β) → α → Option β
  | [], _ => none
  | (k', v') :: rest, k => if k' = k then some v' else lookupFM rest k

/-- Number of newline characters in a chunk of text (`str.count("\n")`). -/
def countNl (l : List Char) : Nat := l.countP (fun c => c = '\n')

/-! ## Data model (analyzer.py / extractors/base.py) -/

inductive IssueSeverity where
  | error
  | warning
  | info
deriving DecidableEq, Repr

/-- Severity test used throughout diff categorization (`severity == IssueSeverity.ERROR`). -/
def IssueSeverity.isError : IssueSeverity → Bool
  | .error => true
  | _ => false

inductive IssueType where
  | syntaxError
  | validationError
  | deprecatedField
  | deprecatedArgument
  | deprecatedEnumValue
deriving DecidableEq, Repr

/-- The `.value` string of the IssueType enum. -/
def IssueType.value : IssueType → String
  | .syntaxError => "syntax_error"
  | .validationError => "validation_error"
  | .deprecatedField => "deprecated_field"
  | .deprecatedArgument => "deprecated_argument"
  | .deprecatedEnumValue => "deprecated_enum_value"

/-- The membership test `issue.type in (DEPRECATED_FIELD, DEPRECATED_ARGUMENT,
DEPRECATED_ENUM_VALUE)` used by the diff engine. -/
def IssueType.isDeprecation : IssueType → Bool
  | .deprecatedField => true
  | .deprecatedArgument => true
  | .deprecatedEnumValue => true
  | _ => false

/-- analyzer.Issue.  `ast`-unrelated fields only; `source_file` is the str() of the path. -/
structure Issue where
  type : IssueType
  severity : IssueSeverity
  message : String
  sourceFile : String
  line : Int
  column : Int
  fieldPath : String := ""
  deprecationReason : Option String := none
  schemaVersion : Option String := none
deriving DecidableEq, Repr

/-- extractors/base.ExtractedQuery. -/
structure ExtractedQuery where
  content : List Char
  sourceFile : String
  startLine : Int
  startCol : Int := 1
  identifier : List Char := []
  endLine : Int := 0
deriving DecidableEq, Repr

/-- The dataclass constructor including `__post_init__`, which derives `end_line`
from the newline count when it is left at 0. -/
def mkExtractedQuery (content : List Char) (sourceFile : String) (startLine : Int)
    (startCol : Int) (identifier : List Char) : ExtractedQuery :=
  { content := content, sourceFile := sourceFile, startLine := startLine,
    startCol := startCol, identifier := identifier,
    endLine := startLine + Int.ofNat (countNl content) }

/-- ExtractedQuery.get_absolute_line. -/
def ExtractedQuery.getAbsoluteLine (q : ExtractedQuery) (relativeLine : Int) : Int :=
  q.startLine + relativeLine - 1

/-- analyzer.QueryAnalysisResult (the opaque `ast` field is dropped). -/
structure QueryAnalysisResult where
  query : ExtractedQuery
  issues : List Issue := []
  isValid : Bool := true
deriving DecidableEq, Repr

/-- QueryAnalysisResult.error_count. -/
def QueryAnalysisResult.errorCount (r : QueryAnalysisResult) : Nat :=
  r.issues.countP (fun i => i.severity.isError)

/-- QueryAnalysisResult.has_errors. -/
def QueryAnalysisResult.hasErrors (r : QueryAnalysisResult) : Bool :=
  r.issues.any (fun i => i.severity.isError)

/-! ## Diff engine (diff.py) -/

inductive DiffCategory where
  | deprecatedNow
  | becomesDeprecated
  | breaksOnUpgrade
  | alreadyBroken
  | stillValid
deriving DecidableEq, Repr

structure DiffItem where
  category : DiffCategory
  query : ExtractedQuery
  issue : Option Issue := none
  currentIssue : Option Issue := none
  targetIssue : Option Issue := none
  message : String := ""
deriving DecidableEq, Repr

structure DiffSummary where
  totalQueries : Nat := 0
  stillValid : Nat := 0
  deprecatedNow : Nat := 0
  becomesDeprecated : Nat := 0
  breaksOnUpgrade : Nat := 0
  alreadyBroken : Nat := 0
deriving DecidableEq, Repr

structure DiffResult where
  currentVersion : String
  targetVersion : String
  items : List DiffItem := []
  summary : DiffSummary := {}
deriving DecidableEq, Repr

/-- VersionDiffer._query_key: `f"{query.source_file}:{query.start_line}:{query.content[:100]}"`. -/
def queryKey (q : ExtractedQuery) : String :=
  q.sourceFile ++ ":" ++ toString q.startLine ++ ":" ++ String.mk (q.content.take 100)

/-- VersionDiffer._issue_key: `f"{issue.type.value}:{issue.field_path}:{issue.message}"`. -/
def issueKey (i : Issue) : String :=
  i.type.value ++ ":" ++ i.fieldPath ++ ":" ++ i.message

/-- VersionDiffer._deprecation_key: `f"{issue.type.value}:{issue.field_path}"`. -/
def deprecationKey (i : Issue) : String :=
  i.type.value ++ ":" ++ i.fieldPath

/-- The set `current_errors` of _categorize_query (a set of keys, used only through
membership, so a list is an equivalent model). -/
def currentErrorKeys (c : QueryAnalysisResult) : List String :=
  (c.issues.filter (fun i => i.severity.isError)).map issueKey

/-- The dict `target_errors` of _categorize_query (dict comprehension: insertion
order of first key occurrence, later duplicate keys overwrite the value). -/
def targetErrorDict (t : QueryAnalysisResult) : List (String × Issue) :=
  (t.issues.filter (fun i => i.severity.isError)).foldl
    (fun m i => insertFM m (issueKey i) i) []

/-- VersionDiffer._get_deprecation_keys. -/
def deprecationKeys (r : QueryAnalysisResult) : List String :=
  (r.issues.filter (fun i => i.type.isDeprecation)).map deprecationKey

/-- VersionDiffer._get_deprecation_map. -/
def deprecationMap (r : QueryAnalysisResult) : List (String × Issue) :=
  (r.issues.filter (fun i => i.type.isDeprecation)).foldl
    (fun m i => insertFM m (deprecationKey i) i) []

def mkAlreadyBrokenItem (cv : String) (q : ExtractedQuery) (i : Issue) : DiffItem :=
  { category := .alreadyBroken, query := q, issue := some i,
    message := "Already broken in " ++ cv ++ ": " ++ i.message }

def mkBreaksOnUpgradeItem (tv : String) (q : ExtractedQuery) (i : Issue) : DiffItem :=
  { category := .breaksOnUpgrade, query := q, targetIssue := some i,
    message := "Will break in " ++ tv ++ ": " ++ i.message }

def mkDeprecatedNowItem (cv : String) (q : ExtractedQuery) (i : Issue) : DiffItem :=
  { category := .deprecatedNow, query := q, issue := some i,
    message := "Deprecated in " ++ cv ++ ": " ++ i.fieldPath }

def mkBecomesDeprecatedItem (tv : String) (q : ExtractedQuery) (i : Issue) : DiffItem :=
  { category := .becomesDeprecated, query := q, targetIssue := some i,
    message := "Will be deprecated in " ++ tv ++ ": " ++ i.fieldPath }

def mkStillValidItem (q : ExtractedQuery) : DiffItem :=
  { category := .stillValid, query := q, message := "Valid in both versions" }

/-- The already_broken loop of _categorize_query: one item per error-severity
issue of the current result, in order. -/
def abItems (cv : String) (current : QueryAnalysisResult) : List DiffItem :=
  (current.issues.filter (fun i => i.severity.isError)).map
    (mkAlreadyBrokenItem cv current.query)

/-- The breaks_on_upgrade loop: one item per entry of the target error dict whose
key is absent from the current error-signature set. -/
def buItems (tv : String) (current target : QueryAnalysisResult) : List DiffItem :=
  ((targetErrorDict target).filter
      (fun kv => !(currentErrorKeys current).contains kv.1)).map
    (fun kv => mkBreaksOnUpgradeItem tv current.query kv.2)

/-- The deprecated_now loop: one item per deprecation-kind issue of the current
result, in order. -/
def dnItems (cv : String) (current : QueryAnalysisResult) : List DiffItem :=
  (current.issues.filter (fun i => i.type.isDeprecation)).map
    (mkDeprecatedNowItem cv current.query)

/-- The becomes_deprecated loop: one item per entry of the target deprecation map
whose key is absent from the current deprecation-signature set. -/
def bdItems (tv : String) (current target : QueryAnalysisResult) : List DiffItem :=
  ((deprecationMap target).filter
      (fun kv => !(deprecationKeys current).contains kv.1)).map
    (fun kv => mkBecomesDeprecatedItem tv current.query kv.2)

/-- The four loops concatenated in their fixed source order. -/
def preItems (cv tv : String) (current target : QueryAnalysisResult) :
    List DiffItem :=
  abItems cv current ++ buItems tv current target ++ dnItems cv current
    ++ bdItems tv current target

/-- VersionDiffer._categorize_query: the four per-issue loops in their fixed order,
then the still_valid fallback when none of them produced an item. -/
def categorizeQuery (cv tv : String) (current target : QueryAnalysisResult) :
    List DiffItem :=
  if preItems cv tv current target = [] then [mkStillValidItem current.query]
  else preItems cv tv current target

/-- The summary-update branch of VersionDiffer.diff (one increment per item,
dispatched on its category). -/
def bumpSummary (s : DiffSummary) (it : DiffItem) : DiffSummary :=
  match it.category with
  | .stillValid => { s with stillValid := s.stillValid + 1 }
  | .deprecatedNow => { s with deprecatedNow := s.deprecatedNow + 1 }
  | .becomesDeprecated => { s with becomesDeprecated := s.becomesDeprecated + 1 }
  | .breaksOnUpgrade => { s with breaksOnUpgrade := s.breaksOnUpgrade + 1 }
  | .alreadyBroken => { s with alreadyBroken := s.alreadyBroken + 1 }

/-- VersionDiffer.diff: build the target lookup keyed by query identity, then for each
current result with a matching target (unmatched ones are skipped), extend items,
bump total_queries once, and bump the per-category counters once per item. -/
def diff (cv tv : String) (currentResults targetResults : List QueryAnalysisResult) :
    DiffResult :=
  let targetByContent := targetResults.foldl
    (fun m r => insertFM m (queryKey r.query) r) []
  currentResults.foldl
    (fun res current =>
      match lookupFM targetByContent (queryKey current.query) with
      | none => res
      | some target =>
        let items := categorizeQuery cv tv current target
        let summary := items.foldl bumpSummary
          { res.summary with totalQueries := res.summary.totalQueries + 1 }
        { res with items := res.items ++ items, summary := summary })
    { currentVersion := cv, targetVersion := tv }

/-! ## Schema-bound analyzer (analyzer.py)

The graphql-core capability (grammar parsing, schema validation, the type-tracking
deprecation traversal) is external to the repository; the spec treats it as a
collaborator exposing parse / validate / traversal.  It is abstracted as a record of
functions reporting messages with optional query-relative 1-based locations.  The
deprecation traversal reports hits of the three deprecation kinds together with the
key name and reason the visitor would compute. -/

inductive DepKind where
  | field
  | argument
  | enumValue
deriving DecidableEq, Repr

def DepKind.toIssueType : DepKind → IssueType
  | .field => .deprecatedField
  | .argument => .deprecatedArgument
  | .enumValue => .deprecatedEnumValue

/-- One hit reported by the deprecation traversal (DeprecationVisitor): the kind,
the key name (e.g. `ParentType.fieldName`), the deprecation reason, and the
relative location of the node's start token when it has one. -/
structure DepHit where
  kind : DepKind
  name : String
  reason : String
  loc : Option (Int × Int)
deriving DecidableEq, Repr

/-- The external GraphQL capability: `parse` returns a syntax error (message and
optional relative location) or succeeds; `validate` returns the validation errors of
the parsed document; `deps` returns the deprecation hits of the traversal. -/
structure GqlCap where
  parse : List Char → Option (String × Option (Int × Int))
  validate : List Char → List (String × Option (Int × Int))
  deps : List Char → List DepHit

/-- QueryAnalyzer._create_syntax_error_issue: map the error's first reported
location (if any) into absolute file coordinates. -/
def mkSyntaxErrorIssue (version : Option String) (q : ExtractedQuery)
    (msg : String) (loc : Option (Int × Int)) : Issue :=
  match loc with
  | some (l, c) =>
    { type := .syntaxError, severity := .error, message := msg,
      sourceFile := q.sourceFile, line := q.getAbsoluteLine l,
      column := if 1 < l then c else q.startCol + c - 1,
      schemaVersion := version }
  | none =>
    { type := .syntaxError, severity := .error, message := msg,
      sourceFile := q.sourceFile, line := q.startLine, column := q.startCol,
      schemaVersion := version }

/-- QueryAnalyzer._create_validation_error_issue (same location mapping). -/
def mkValidationErrorIssue (version : Option String) (q : ExtractedQuery)
    (err : String × Option (Int × Int)) : Issue :=
  match err.2 with
  | some (l, c) =>
    { type := .validationError, severity := .error, message := err.1,
      sourceFile := q.sourceFile, line := q.getAbsoluteLine l,
      column := if 1 < l then c else q.startCol + c - 1,
      schemaVersion := version }
  | none =>
    { type := .validationError, severity := .error, message := err.1,
      sourceFile := q.sourceFile, line := q.startLine, column := q.startCol,
      schemaVersion := version }

/-- DeprecationVisitor._add_deprecation_issue: warning-severity issue with message
`name is deprecated`, field_path the key name, same location mapping. -/
def mkDeprecationIssue (version : Option String) (q : ExtractedQuery)
    (h : DepHit) : Issue :=
  match h.loc with
  | some (l, c) =>
    { type := h.kind.toIssueType, severity := .warning,
      message := h.name ++ " is deprecated", sourceFile := q.sourceFile,
      line := q.getAbsoluteLine l,
      column := if 1 < l then c else q.startCol + c - 1,
      fieldPath := h.name, deprecationReason := some h.reason,
      schemaVersion := version }
  | none =>
    { type := h.kind.toIssueType, severity := .warning,
      message := h.name ++ " is deprecated", sourceFile := q.sourceFile,
      line := q.startLine, column := q.startCol,
      fieldPath := h.name, deprecationReason := some h.reason,
      schemaVersion := version }

/-- QueryAnalyzer.analyze: parse (on syntax failure emit exactly one issue and
return, is_valid False); validate (each error one issue, is_valid set False);
deprecation scan runs whenever an AST exists, appending warning issues. -/
def analyze (cap : GqlCap) (version : Option String) (q : ExtractedQuery) :
    QueryAnalysisResult :=
  match cap.parse q.content with
  | some (msg, loc) =>
    { query := q, issues := [mkSyntaxErrorIssue version q msg loc], isValid := false }
  | none =>
    let vErrs := cap.validate q.content
    { query := q,
      issues := vErrs.map (mkValidationErrorIssue version q)
        ++ (cap.deps q.content).map (mkDeprecationIssue version q),
      isValid := vErrs.isEmpty }

/-- Modelled from the spec (section 4.2, "Location mapping"): the shared mapping from a
capability-reported relative location to absolute coordinates, written from the
spec's words for comparison against the issue constructors of the code. -/
def specAbsLoc (q : ExtractedQuery) (loc : Option (Int × Int)) : Int × Int :=
  match loc with
  | some (relLine, relCol) =>
    (q.startLine + relLine - 1,
     if 1 < relLine then relCol else q.startCol + relCol - 1)
  | none => (q.startLine, q.startCol)

/-! ## Regex scanners (extractors/typescript.py, extractors/php.py)

Each compiled pattern of the source is embedded as a deterministic matcher at a
fixed position (`try...` functions below); the greedy/lazy and backtracking
behaviour of each concrete pattern is resolved by hand and noted where it matters.
`finditer` reproduces `re.finditer`: leftmost match at each position, scanning
resumes after the previous match's end. -/

def backtickChar : Char := Char.ofNat 96

def lbrace : Char := Char.ofNat 123

def rbrace : Char := Char.ofNat 125

/-- Python re `\s` (ASCII inputs): space, tab, newline, carriage return,
vertical tab, form feed. -/
def isSpaceChar (c : Char) : Bool :=
  c = ' ' || c = '\t' || c = '\n' || c = '\r' || c = Char.ofNat 11 || c = Char.ofNat 12

/-- Python re `\w` (ASCII inputs). -/
def isWordChar (c : Char) : Bool := c.isAlphanum || c = '_'

/-- The character class `[ \t]`. -/
def isIndentChar (c : Char) : Bool := c = ' ' || c = '\t'

def startsWithL : List Char → List Char → Bool
  | [], _ => true
  | _ :: _, [] => false
  | p :: ps, c :: cs => p = c && startsWithL ps cs

/-- Case-insensitive variant (re.IGNORECASE). -/
def startsWithCI : List Char → List Char → Bool
  | [], _ => true
  | _ :: _, [] => false
  | p :: ps, c :: cs => p.toLower = c.toLower && startsWithCI ps cs

/-- Match a literal, returning the remainder. -/
def expectL (pre s : List Char) : Option (List Char) :=
  if startsWithL pre s then some (s.drop pre.length) else none

/-- Match a literal case-insensitively, returning the remainder. -/
def expectCI (pre s : List Char) : Option (List Char) :=
  if startsWithCI pre s then some (s.drop pre.length) else none

/-- Greedy `\s+` when the following pattern element starts with a non-whitespace
character (every use below): at least one whitespace char, consume the maximal run. -/
def wsPlus : List Char → Option (List Char)
  | c :: rest => if isSpaceChar c then some (rest.dropWhile isSpaceChar) else none
  | [] => none

/-- Greedy `\s*\n`: the regex takes the maximal whitespace run and backtracks to
its last newline.  (Backtracking to an earlier newline can never produce a match
the last-newline choice misses, because the group that follows is a lazy DOTALL
`(.*?)` whose terminator starts with a non-whitespace character.) -/
def wsNewline (s : List Char) : Option (List Char) :=
  let run := s.takeWhile isSpaceChar
  if run.contains '\n' then
    some ((run.reverse.takeWhile (fun c => c != '\n')).reverse
          ++ s.dropWhile isSpaceChar)
  else none

/-- Lazy `(.*?)` followed by a terminator: the earliest position at which the
terminator parser succeeds wins; returns the skipped content and the remainder
after the terminator. -/
def findTerm (term : List Char → Option (List Char)) :
    List Char → Option (List Char × List Char)
  | [] =>
    match term [] with
    | some r => some ([], r)
    | none => none
  | c :: rest =>
    match term (c :: rest) with
    | some r => some ([], r)
    | none =>
      match findTerm term rest with
      | some (content, r) => some (c :: content, r)
      | none => none

/-- One regex match: the capture groups (group i at index i-1), and the absolute
start/stop offsets of the whole match. -/
structure ReMatch where
  groups : List (List Char)
  start : Nat
  stop : Nat
deriving DecidableEq, Repr

/-- re.Match.group(i) for i >= 1: IndexError (modelled as Except.error) when the
pattern has fewer groups. -/
def ReMatch.group (m : ReMatch) (i : Nat) : Except Unit (List Char) :=
  match m.groups.get? (i - 1) with
  | some g => .ok g
  | none => .error ()

/-- Candidate matches at every position, in position order. -/
def matchesAtAux (tryM : List Char → Option (List (List Char) × List Char)) :
    List Char → Nat → List ReMatch
  | [], pos =>
    match tryM [] with
    | some (gs, _) => [{ groups := gs, start := pos, stop := pos }]
    | none => []
  | c :: rest, pos =>
    (match tryM (c :: rest) with
     | some (gs, rem) =>
       [{ groups := gs, start := pos, stop := pos + ((c :: rest).length - rem.length) }]
     | none => []) ++ matchesAtAux tryM rest (pos + 1)

/-- Keep the leftmost match, then every later match starting at or after the
previous kept match's end (re.finditer's non-overlapping scan; an empty match
advances the scan position by one). -/
def selectNonOverlapping : List ReMatch → Nat → List ReMatch
  | [], _ => []
  | m :: rest, minPos =>
    if minPos ≤ m.start then
      m :: selectNonOverlapping rest (max m.stop (m.start + 1))
    else selectNonOverlapping rest minPos

/-- re.finditer for a pattern embedded as a positional matcher. -/
def finditer (tryM : List Char → Option (List (List Char) × List Char))
    (s : List Char) : List ReMatch :=
  selectNonOverlapping (matchesAtAux tryM s 0) 0

/-! ### GRAPHQL_TEMPLATE_PATTERN and GRAPHQL_GQL_PATTERN -/

/-- Terminator of GRAPHQL_TEMPLATE_PATTERN's lazy body: a backtick, optional
`\s*as\s+const`, then `;`.  When the optional part matches but `;` does not, the
regex retries the optional part empty, which is the fallback branch here. -/
def templateTerm (s : List Char) : Option (List Char) := do
  let s1 ← expectL [backtickChar] s
  match (do
    let t ← expectL ("as".data) (s1.dropWhile isSpaceChar)
    let t ← wsPlus t
    let t ← expectL ("const".data) t
    expectL (";".data) t) with
  | some r => some r
  | none => expectL (";".data) s1

/-- GRAPHQL_TEMPLATE_PATTERN after the optional `export\s+`:
`const\s+(\w+)\s*=\s*` backtick `#graphql\s*\n (.*?)` terminator. -/
def tryTemplateCore (s : List Char) : Option (List (List Char) × List Char) := do
  let s ← expectL ("const".data) s
  let s ← wsPlus s
  let name := s.takeWhile isWordChar
  if name = [] then none else do
  let s := s.dropWhile isWordChar
  let s ← expectL ("=".data) (s.dropWhile isSpaceChar)
  let s ← expectL (backtickChar :: ("#graphql".data)) (s.dropWhile isSpaceChar)
  let s ← wsNewline s
  let (content, rem) ← findTerm templateTerm s
  some ([name, content], rem)

/-- GRAPHQL_TEMPLATE_PATTERN: two capture groups (variable name, body).  The
optional `(?:export\s+)?` is retried empty when the rest fails after it. -/
def tryTemplate (s : List Char) : Option (List (List Char) × List Char) :=
  match expectL ("export".data) s with
  | some r =>
    match wsPlus r with
    | some r2 =>
      match tryTemplateCore r2 with
      | some v => some v
      | none => tryTemplateCore s
    | none => tryTemplateCore s
  | none => tryTemplateCore s

/-- Terminator of GRAPHQL_GQL_PATTERN's lazy body: a backtick, greedy `[ \t]*`,
then optional `as\s+const`. -/
def gqlTerm (s : List Char) : Option (List Char) := do
  let s1 ← expectL [backtickChar] s
  let s2 := s1.dropWhile isIndentChar
  match (do
    let t ← expectL ("as".data) s2
    let t ← wsPlus t
    expectL ("const".data) t) with
  | some r => some r
  | none => some s2

def tryGqlCore (s : List Char) : Option (List (List Char) × List Char) := do
  let s ← expectL [backtickChar] (s.dropWhile isSpaceChar)
  let s ← expectL ("\n".data) (s.dropWhile isIndentChar)
  let (content, rem) ← findTerm gqlTerm s
  some ([content], rem)

/-- GRAPHQL_GQL_PATTERN: `(?:gql|graphql)\s*` backtick `[ \t]*\n (.*?)` terminator.
Note the single capture group: the body is group 1 and there is no group 2. -/
def tryGql (s : List Char) : Option (List (List Char) × List Char) :=
  match expectL ("gql".data) s with
  | some r =>
    match tryGqlCore r with
    | some v => some v
    | none => (expectL ("graphql".data) s).bind tryGqlCore
  | none => (expectL ("graphql".data) s).bind tryGqlCore

def templateFinditer (content : List Char) : List ReMatch :=
  finditer tryTemplate content

def gqlFinditer (content : List Char) : List ReMatch :=
  finditer tryGql content

/-! ### INTERPOLATION_PATTERN, OPERATION_PATTERN, IMPORT_PATTERN -/

/-- INTERPOLATION_PATTERN `\$\x7b(\w+)\x7d`: one capture group, the variable name. -/
def tryInterp (s : List Char) : Option (List (List Char) × List Char) :=
  match s with
  | c :: b :: rest =>
    if c = '$' ∧ b = lbrace then
      let name := rest.takeWhile isWordChar
      if name = [] then none
      else
        match rest.dropWhile isWordChar with
        | d :: rest2 => if d = rbrace then some ([name], rest2) else none
        | [] => none
    else none
  | _ => none

def interpFinditer (content : List Char) : List ReMatch :=
  finditer tryInterp content

/-- The group-1 captures of all INTERPOLATION_PATTERN matches, in order. -/
def interpNames (content : List Char) : List (List Char) :=
  (interpFinditer content).foldl
    (fun acc m => match m.groups with
      | [name] => acc ++ [name]
      | _ => acc) []

/-- re.sub with a replacement function: stitch the text back together around the
non-overlapping matches, substituting each match's replacement. -/
def splice : List Char → Nat → List (ReMatch × List Char) → List Char
  | s, _, [] => s
  | s, pos, (m, repl) :: rest =>
    s.take (m.start - pos) ++ repl ++ splice (s.drop (m.stop - pos)) m.stop rest

/-- OPERATION_PATTERN anchored at one line start:
`\s*(?:query|mutation|subscription)\s+\w*\s*(?:\(|\x7b|@)` (each greedy run is
followed by a character outside its class, so the parse is deterministic). -/
def operationAt (s : List Char) : Bool :=
  let s1 := s.dropWhile isSpaceChar
  let tryKw (kw : String) : Bool :=
    match expectL kw.data s1 with
    | some r =>
      match r with
      | c :: _ =>
        isSpaceChar c &&
          (match ((r.dropWhile isSpaceChar).dropWhile isWordChar).dropWhile isSpaceChar with
           | d :: _ => d = '(' || d = lbrace || d = '@'
           | [] => false)
      | [] => false
    | none => false
  tryKw "query" || tryKw "mutation" || tryKw "subscription"

def containsOperationAux : List Char → Bool
  | [] => false
  | c :: rest =>
    (if c = '\n' then operationAt rest else false) || containsOperationAux rest

/-- TypescriptExtractor._contains_operation: OPERATION_PATTERN search, `^`
matching at offset 0 and after every newline (re.MULTILINE). -/
def containsOperation (s : List Char) : Bool :=
  operationAt s || containsOperationAux s

/-- IMPORT_PATTERN `import\s*\x7b([^\x7d]+)\x7d\s*from\s*['"]([^'"]+)['"]`:
two capture groups (raw name list, source path). -/
def tryImport (s : List Char) : Option (List (List Char) × List Char) := do
  let s ← expectL ("import".data) s
  let s ← expectL [lbrace] (s.dropWhile isSpaceChar)
  let names := s.takeWhile (fun c => c != rbrace)
  if names = [] then none else do
  let s ← expectL [rbrace] (s.dropWhile (fun c => c != rbrace))
  let s ← expectL ("from".data) (s.dropWhile isSpaceChar)
  match s.dropWhile isSpaceChar with
  | q :: s2 =>
    if q = '\'' ∨ q = '"' then
      let path := s2.takeWhile (fun c => ¬ (c = '\'' ∨ c = '"'))
      if path = [] then none
      else
        match s2.dropWhile (fun c => ¬ (c = '\'' ∨ c = '"')) with
        | q2 :: s3 => if q2 = '\'' ∨ q2 = '"' then some ([names, path], s3) else none
        | [] => none
    else none
  | [] => none

def importFinditer (content : List Char) : List ReMatch :=
  finditer tryImport content

/-! ### Import parsing and fragment-map construction (typescript.py) -/

/-- str.split(sep) for a single character separator. -/
def splitOnChar (sep : Char) : List Char → List (List Char)
  | [] => [[]]
  | c :: rest =>
    let r := splitOnChar sep rest
    if c = sep then [] :: r
    else
      match r with
      | h :: t => (c :: h) :: t
      | [] => [[c]]

/-- str.strip(). -/
def stripL (l : List Char) : List Char :=
  ((l.dropWhile isSpaceChar).reverse.dropWhile isSpaceChar).reverse

/-- str.split(sep, 1): split at the first occurrence of sep, if any. -/
def splitFirst (sep : List Char) : List Char → Option (List Char × List Char)
  | [] => none
  | c :: rest =>
    if startsWithL sep (c :: rest) then some ([], (c :: rest).drop sep.length)
    else
      match splitFirst sep rest with
      | some (pre, post) => some (c :: pre, post)
      | none => none

/-- typescript.ImportedFragment (the transient resolved_path field is part of the
abstracted path resolution). -/
structure ImportedFragment where
  name : List Char
  sourcePath : List Char
deriving DecidableEq, Repr

/-- TypescriptExtractor.parse_imports: for every IMPORT_PATTERN match, split the
imported-name list on commas, strip each part, skip empties, and for `X as Y`
keep the local name Y (the text after the first " as ", stripped). -/
def parseImports (content : List Char) : List ImportedFragment :=
  (importFinditer content).foldl
    (fun acc m =>
      match m.groups with
      | [namesRaw, sourcePath] =>
        acc ++ (splitOnChar ',' namesRaw).filterMap (fun part =>
          let p := stripL part
          if p = [] then none
          else
            match splitFirst (" as ".data) p with
            | some (_, post) => some { name := stripL post, sourcePath := sourcePath }
            | none => some { name := p, sourcePath := sourcePath })
      | _ => acc)
    []

/-- The local-declaration loop of build_fragment_map: `group(1)` as the variable
name and `group(2)` as the body for each match of both patterns - fallible,
because GRAPHQL_GQL_PATTERN matches carry a single group. -/
def bfmLocal (ms : List ReMatch) (acc : List (List Char × List Char)) :
    Except Unit (List (List Char × List Char)) :=
  match ms with
  | [] => .ok acc
  | m :: rest =>
    match m.group 1 with
    | .error e => .error e
    | .ok varName =>
      match m.group 2 with
      | .error e => .error e
      | .ok graphqlContent =>
        bfmLocal rest
          (if varName ≠ [] ∧ graphqlContent ≠ [] then
            insertFM acc varName graphqlContent
          else acc)

/-- TypescriptExtractor.resolve_interpolations: substitute `$\x7bNAME\x7d`
placeholders from the fragment map, recursing into the substituted fragment with
the depth bound decremented; at depth 0 the content is returned untouched, and an
unknown variable's placeholder is left verbatim (match.group(0)). -/
def resolveInterpolations (fm : List (List Char × List Char)) :
    Nat → List Char → List Char
  | 0, content => content
  | d + 1, content =>
    splice content 0 ((interpFinditer content).map (fun m =>
      (m,
        match m.groups with
        | [name] =>
          match lookupFM fm name with
          | some frag => resolveInterpolations fm d frag
          | none => '$' :: lbrace :: (name ++ [rbrace])
        | _ => [])))

/-- Domain of the modelled filesystem. -/
def fsDom (fs : List (String × List Char)) : Finset String :=
  (fs.map Prod.fst).toFinset

def lookupFM_mem_fsDom {fs : List (String × List Char)} {p : String}
    {c : List Char} (h : lookupFM fs p = some c) : p ∈ fsDom fs := by
  induction fs with
  | nil => simp [lookupFM] at h
  | cons kv rest ih =>
    rw [lookupFM] at h
    by_cases hk : kv.1 = p
    · simp [fsDom, hk.symm]
    · simp only [if_neg hk] at h
      have := ih h
      simp [fsDom] at this ⊢
      tauto

def visited_card_lt {D v : Finset String} {p : String} (hp : p ∉ v) :
    (D \ insert p v).card < ((insert p D) \ v).card := by
  apply Finset.card_lt_card
  rw [Finset.ssubset_iff_of_subset]
  · exact ⟨p, by simp [hp], by simp⟩
  · intro x hx
    simp only [Finset.mem_sdiff, Finset.mem_insert] at hx ⊢
    tauto

mutual

/-- TypescriptExtractor.build_fragment_map.  The filesystem and
resolve_import_path (which probes the real filesystem for project roots,
extension candidates and index files) are external effects, abstracted as the
`fs` association list (absolute path to content, with `.exists()` = membership
and `read_text` = lookup) and the `resolver` function.  A revisited file returns
an empty map; every recursive call receives a branch-local copy of the visited
set extended with the current file.  Except-valued because the local-declaration
loop reads group(2) of single-group GRAPHQL_GQL_PATTERN matches; that error is
not among the caught (OSError, UnicodeDecodeError) and so propagates. -/
def buildFragmentMap (fs : List (String × List Char))
    (resolver : List Char → String → Option String) (filePath : String)
    (content : List Char) (visited : List String) :
    Except Unit (List (List Char × List Char)) :=
  if h : filePath ∈ visited then .ok []
  else
    match bfmImports fs resolver (parseImports content) filePath
        (filePath :: visited) [] with
    | .error e => .error e
    | .ok importedMap =>
      match bfmLocal (templateFinditer content ++ gqlFinditer content)
          importedMap with
      | .error e => .error e
      | .ok fragmentMap =>
        .ok (fragmentMap.map (fun kv =>
          (kv.1, resolveInterpolations fragmentMap 10 kv.2)))
termination_by ((insert filePath (fsDom fs) \ visited.toFinset).card, 0)
decreasing_by
  simp only [List.toFinset_cons]
  exact Prod.Lex.left _ _ (visited_card_lt (by simpa using h))

/-- The import loop of build_fragment_map: resolve each import, check existence,
read the file, recurse with the branch-local visited set, and keep only the
specifically imported name (read failures are skipped; the group(2) IndexError
of a recursive call propagates). -/
def bfmImports (fs : List (String × List Char))
    (resolver : List Char → String → Option String)
    (imps : List ImportedFragment) (curPath : String) (bv : List String)
    (acc : List (List Char × List Char)) :
    Except Unit (List (List Char × List Char)) :=
  match imps with
  | [] => .ok acc
  | imp :: rest =>
    match resolver imp.sourcePath curPath with
    | none => bfmImports fs resolver rest curPath bv acc
    | some rp =>
      match hc : lookupFM fs rp with
      | none => bfmImports fs resolver rest curPath bv acc
      | some importedContent =>
        match buildFragmentMap fs resolver rp importedContent bv with
        | .error e => .error e
        | .ok m =>
          bfmImports fs resolver rest curPath bv
            (match lookupFM m imp.name with
             | some frag => insertFM acc imp.name frag
             | none => acc)
termination_by ((fsDom fs \ bv.toFinset).card, imps.length + 1)
decreasing_by
  all_goals first
    | (simp only [List.length_cons]
       exact Prod.Lex.right _ (by omega))
    | (rw [Finset.insert_eq_self.mpr (lookupFM_mem_fsDom hc)]
       exact Prod.Lex.right _ (by simp only [List.length_cons]; omega))

end

/-! ### TypescriptExtractor.extract and PHPExtractor.extract -/

/-- TypescriptExtractor._find_referenced_variables: interpolation names occurring
in the group(2) body of every match of both patterns (reading group(2) of a
GRAPHQL_GQL_PATTERN match raises). -/
def findReferencedVariables (content : List Char) :
    Except Unit (List (List Char)) :=
  (templateFinditer content ++ gqlFinditer content).foldlM
    (fun acc m => (m.group 2).map (fun qc => acc ++ interpNames qc)) []

/-- The resolved content of a block in pass 3 of TypescriptExtractor.extract:
interpolations substituted only when resolution is enabled and the fragment map
is non-empty (Python dict truthiness). -/
def tsResolved (resolveFragments : Bool)
    (fragmentMap : List (List Char × List Char)) (queryContent : List Char) :
    List Char :=
  if resolveFragments ∧ fragmentMap ≠ [] then
    resolveInterpolations fragmentMap 10 queryContent
  else queryContent

/-- The emission decision of pass 3 once both groups have been read: skip
referenced building blocks, skip fragment-only blocks, skip empty resolved
content, otherwise append the query (start line = newline count before the match
plus 2, start column = the source's literal 1). -/
def tsEmit (resolveFragments : Bool) (referencedVars : List (List Char))
    (fragmentMap : List (List Char × List Char)) (filePath : String)
    (content : List Char) (queries : List ExtractedQuery) (m : ReMatch)
    (varName queryContent : List Char) : List ExtractedQuery :=
  if referencedVars.contains varName then queries
  else if ¬ containsOperation (tsResolved resolveFragments fragmentMap queryContent) then
    queries
  else if tsResolved resolveFragments fragmentMap queryContent = [] then queries
  else
    queries ++ [mkExtractedQuery
      (tsResolved resolveFragments fragmentMap queryContent) filePath
      (Int.ofNat (countNl (content.take m.start) + 1 + 1)) 1 varName]

def tsStep (resolveFragments : Bool) (referencedVars : List (List Char))
    (fragmentMap : List (List Char × List Char)) (filePath : String)
    (content : List Char) (queries : List ExtractedQuery) (m : ReMatch) :
    Except Unit (List ExtractedQuery) := do
  let varName ← m.group 1
  let queryContent ← m.group 2
  pure (tsEmit resolveFragments referencedVars fragmentMap filePath content
    queries m varName queryContent)

/-- TypescriptExtractor.extract: pass 1 collects referenced building-block names,
pass 2 builds the fragment map, pass 3 walks the matches of both patterns
through tsStep. -/
def tsExtract (fs : List (String × List Char))
    (resolver : List Char → String → Option String)
    (filePath : String) (content : List Char)
    (resolveFragments : Bool := true) : Except Unit (List ExtractedQuery) := do
  let referencedVars ← findReferencedVariables content
  let fragmentMap ←
    if resolveFragments then buildFragmentMap fs resolver filePath content []
    else pure []
  (templateFinditer content ++ gqlFinditer content).foldlM
    (tsStep resolveFragments referencedVars fragmentMap filePath content) []

/-- The heredoc delimiter alternation `(QUERY|GRAPHQL|GQL)` under re.IGNORECASE,
returning the captured text as written.  The alternatives are pairwise
distinguishable on their first two characters, so no alternation backtracking
against the continuation is possible. -/
def tryDelim (s : List Char) : Option (List Char × List Char) :=
  match expectCI ("QUERY".data) s with
  | some r => some (s.take 5, r)
  | none =>
    match expectCI ("GRAPHQL".data) s with
    | some r => some (s.take 7, r)
    | none =>
      match expectCI ("GQL".data) s with
      | some r => some (s.take 3, r)
      | none => none

/-- The heredoc closing terminator `\n[ \t]*\1;`: the backreference is matched
case-insensitively under re.IGNORECASE. -/
def heredocTerm (delim : List Char) (s : List Char) : Option (List Char) := do
  let s ← expectL ("\n".data) s
  let s ← expectCI delim (s.dropWhile isIndentChar)
  expectL (";".data) s

/-- The remainders greedy `\s*\n` backtracking can leave, longest consumed
prefix (the latest newline of the whitespace run) first - the order the regex
engine tries them.  The first argument is the maximal whitespace run, the second
the text after it. -/
def wsNewlineCandidates : List Char → List Char → List (List Char)
  | [], _ => []
  | c :: run, rest =>
    if c = '\n' then wsNewlineCandidates run rest ++ [run ++ rest]
    else wsNewlineCandidates run rest

/-- Opening `\s*\n` of the heredoc patterns followed by the lazy body and its
closing: unlike the backtick terminators, the heredoc terminator starts with a
newline, which can lie inside the whitespace run itself, so the greedy-`\s*`
backtracking over newline splits is observable and each candidate is tried in
engine order until the closing is found. -/
def heredocTail (delim : List Char) (s : List Char) :
    Option (List Char × List Char) :=
  (wsNewlineCandidates (s.takeWhile isSpaceChar) (s.dropWhile isSpaceChar)).findSome?
    (fun cand => findTerm (heredocTerm delim) cand)

/-- HEREDOC_PATTERN: `<<<\s*['"]?(QUERY|GRAPHQL|GQL)['"]?\s*\n(.*?)\n[ \t]*\1;`
(re.IGNORECASE, re.DOTALL).  Each optional quote is consumed when present: if the
following element then fails, the backtracked alternative places the quote
character where a delimiter letter (or whitespace/newline) is required, failing
identically. -/
def tryHeredoc (s : List Char) : Option (List (List Char) × List Char) := do
  let s1 ← expectL ("<<<".data) s
  let s2 := (s1.dropWhile isSpaceChar)
  let s3 :=
    match s2 with
    | q :: rest => if q = '\'' ∨ q = '"' then rest else s2
    | [] => s2
  let (delim, s4) ← tryDelim s3
  let s5 :=
    match s4 with
    | q :: rest => if q = '\'' ∨ q = '"' then rest else s4
    | [] => s4
  let (content, rem) ← heredocTail delim s5
  some ([delim, content], rem)

/-- NOWDOC_PATTERN: `<<<\s*'(QUERY|GRAPHQL|GQL)'\s*\n(.*?)\n[ \t]*\1;` - the
single quotes are mandatory. -/
def tryNowdoc (s : List Char) : Option (List (List Char) × List Char) := do
  let s1 ← expectL ("<<<".data) s
  let s2 ← expectL ("'".data) ((s1.dropWhile isSpaceChar))
  let (delim, s3) ← tryDelim s2
  let s4 ← expectL ("'".data) s3
  let (content, rem) ← heredocTail delim s4
  some ([delim, content], rem)

def heredocFinditer (content : List Char) : List ReMatch :=
  finditer tryHeredoc content

def nowdocFinditer (content : List Char) : List ReMatch :=
  finditer tryNowdoc content

def splitNl : List Char → List (List Char) := splitOnChar '\n'

def joinNl : List (List Char) → List Char
  | [] => []
  | [l] => l
  | l :: rest => l ++ '\n' :: joinNl rest

def commonPre : List Char → List Char → List Char
  | a :: as, b :: bs => if a = b then a :: commonPre as bs else []
  | _, _ => []

/-- textwrap.dedent: lines consisting solely of `[ \t]` are first blanked; the
margin is the longest common prefix of the leading `[ \t]` runs of the remaining
non-empty lines (pairwise common-prefix folding in the source computes exactly
this); a non-empty margin is then removed from the start of every line carrying
it. -/
def dedent (l : List Char) : List Char :=
  let lines1 := (splitNl l).map (fun ln =>
    if ln ≠ [] ∧ ln.all isIndentChar then [] else ln)
  let indents := (lines1.filter (fun ln => ln ≠ ([] : List Char))).map
    (fun ln => ln.takeWhile isIndentChar)
  match indents with
  | [] => joinNl lines1
  | ind :: rest =>
    let margin := rest.foldl commonPre ind
    if margin = [] then joinNl lines1
    else
      joinNl (lines1.map (fun ln =>
        if startsWithL margin ln then ln.drop margin.length else ln))

/-- str.replace of a backslash-dollar pair by a dollar (left-to-right,
non-overlapping). -/
def replaceEscDollar : List Char → List Char
  | [] => []
  | [c] => [c]
  | c :: d :: rest =>
    if c = '\\' ∧ d = '$' then '$' :: replaceEscDollar rest
    else c :: replaceEscDollar (d :: rest)

/-- PHPExtractor.extract: for every heredoc then nowdoc match, the start line is
the newline count before the match plus two (the body starts on the line after
the opening marker), the body is dedented, unescaped, stripped, non-empty bodies
are emitted with start_col hard-coded to 1 (the column computed from the match
offset is discarded by the source) and the uppercased delimiter as identifier.
The loop body for one heredoc/nowdoc match follows. -/
def phpStep (filePath : String) (content : List Char)
    (queries : List ExtractedQuery) (m : ReMatch) : List ExtractedQuery :=
  match m.groups with
  | [delim, queryContent] =>
    if stripL (replaceEscDollar (dedent queryContent)) ≠ [] then
      queries ++ [mkExtractedQuery (stripL (replaceEscDollar (dedent queryContent)))
        filePath (Int.ofNat (countNl (content.take m.start) + 1 + 1)) 1
        (delim.map Char.toUpper)]
    else queries
  | _ => queries

def phpExtract (filePath : String) (content : List Char) : List ExtractedQuery :=
  (heredocFinditer content ++ nowdocFinditer content).foldl
    (phpStep filePath content) []

/-- Modelled from the spec (section 4.1): the 1-based column of a match start,
derived from the offset since the last newline before it (rfind + 1 in the
sources' dead local variable). -/
def specColOf (content : List Char) (startPos : Nat) : Nat :=
  ((content.take startPos).reverse.takeWhile (fun c => c != '\n')).length + 1

/-- pathlib.Path.stem: final path component without its last suffix. -/
def stemOf (p : String) : List Char :=
  let base := (p.data.reverse.takeWhile (fun c => c != '/')).reverse
  let stem := (((base.reverse.dropWhile (fun c => c != '.')).drop 1)).reverse
  if stem = [] then base else stem

/-- GraphQLExtractor.extract: the whole file as a single query document, or
nothing when the stripped content is empty. -/
def graphqlExtract (filePath : String) (content : List Char) : List ExtractedQuery :=
  if stripL content = [] then []
  else [mkExtractedQuery content filePath 1 1 (stemOf filePath)]

/-- Substring test (used to exhibit a placeholder surviving in extracted output). -/
def containsSub (s sub : List Char) : Bool :=
  match s with
  | [] => startsWithL sub []
  | _ :: rest => startsWithL sub s || containsSub rest sub

/-! ## Concrete inputs for the claim theorems and witnesses -/

/-- The spec's Scenario C file: FRAGMENT is a plain backtick template (no
`#graphql` tag), QUERY is a `#graphql`-tagged template interpolating it. -/
def scenarioCContent : List Char :=
  ("const FRAGMENT = `fragment F on Shop \x7b name \x7d`;\n"
   ++ "export const QUERY = `#graphql\nquery Q \x7b shop \x7b ...$\x7bFRAGMENT\x7d \x7d \x7d\n`;\n").data

/-- A TypeScript file whose gql-tagged template is matched by
GRAPHQL_GQL_PATTERN. -/
def gqlFileContent : List Char :=
  ("const SHOP_QUERY = gql`\nquery Shop \x7b shop \x7b name \x7d \x7d\n`;\n").data

/-- A PHP file whose heredoc opens mid-line (at 0-based offset 5, column 6). -/
def phpFileContent : List Char :=
  ("$q = <<<QUERY\n\x7b shop \x7b name \x7d \x7d\nQUERY;\n").data

/-- A resolver that resolves no import (files with no imports never consult it). -/
def noResolver : List Char → String → Option String := fun _ _ => none

/-- The single ExtractedQuery produced from scenarioCContent: the QUERY template,
with the interpolation placeholder left verbatim. -/
def scenarioCQuery : ExtractedQuery :=
  { content := ("query Q \x7b shop \x7b ...$\x7bFRAGMENT\x7d \x7d \x7d\n").data,
    sourceFile := "f.ts", startLine := 3, startCol := 1,
    identifier := ("QUERY").data, endLine := 4 }

/-- The single ExtractedQuery produced from phpFileContent. -/
def phpQuery : ExtractedQuery :=
  { content := ("\x7b shop \x7b name \x7d \x7d").data,
    sourceFile := "q.php", startLine := 2, startCol := 1,
    identifier := ("QUERY").data, endLine := 2 }

def sampleQuery : ExtractedQuery :=
  { content := ("query \x7b shop \x7b legacyField \x7d \x7d\n").data,
    sourceFile := "app/shop.ts", startLine := 5, startCol := 1,
    identifier := ("SHOP_QUERY".data), endLine := 6 }

/-- A deprecation warning reported against the current schema. -/
def depIssueCur : Issue :=
  { type := .deprecatedField, severity := .warning,
    message := "Shop.legacyField is deprecated", sourceFile := "app/shop.ts",
    line := 6, column := 3, fieldPath := "Shop.legacyField",
    deprecationReason := some "Use newField", schemaVersion := some "2024-01" }

/-- The same deprecation signature in the target schema, with a different reason
and message text. -/
def depIssueTar : Issue :=
  { type := .deprecatedField, severity := .warning,
    message := "Shop.legacyField is deprecated, removal planned",
    sourceFile := "app/shop.ts", line := 6, column := 3,
    fieldPath := "Shop.legacyField",
    deprecationReason := some "Removed soon", schemaVersion := some "2024-07" }

/-- A validation error as produced against the target schema. -/
def valIssueTar : Issue :=
  { type := .validationError, severity := .error,
    message := "Cannot query field legacyField on type Shop",
    sourceFile := "app/shop.ts", line := 6, column := 3,
    schemaVersion := some "2024-07" }

/-- A validation error with the same (type, fieldPath, message) signature in both
runs. -/
def valIssueBoth : Issue :=
  { type := .validationError, severity := .error,
    message := "Cannot query field gone on type Shop",
    sourceFile := "app/shop.ts", line := 6, column := 3,
    schemaVersion := none }

def resEmptyCur : QueryAnalysisResult := { query := sampleQuery }

def resEmptyTar : QueryAnalysisResult := { query := sampleQuery }

def resDepCur : QueryAnalysisResult :=
  { query := sampleQuery, issues := [depIssueCur] }

def resDepTar : QueryAnalysisResult :=
  { query := sampleQuery, issues := [depIssueTar] }

def resValTar : QueryAnalysisResult :=
  { query := sampleQuery, issues := [valIssueTar], isValid := false }

def resBothCur : QueryAnalysisResult :=
  { query := sampleQuery, issues := [valIssueBoth, depIssueCur], isValid := false }

def resBothTar : QueryAnalysisResult :=
  { query := sampleQuery, issues := [valIssueBoth, depIssueTar], isValid := false }

/-- A capability whose parse succeeds, validation reports one located error, and
deprecation traversal reports one hit without a location. -/
def sampleCap : GqlCap :=
  { parse := fun _ => none,
    validate := fun _ => [("Cannot query field legacyField on type Shop", some (2, 7))],
    deps := fun _ =>
      [{ kind := .field, name := "Shop.legacyField", reason := "Use newField",
         loc := none }] }

/-! ## Helper lemmas about the diff engine -/

theorem filter_map_comp {α β : Type} (f : α → β) (p : β → Bool) (l : List α) :
    (l.map f).filter p = (l.filter (fun a => p (f a))).map f := by
  induction l with
  | nil => rfl
  | cons a t ih =>
    simp only [List.map_cons, List.filter_cons, ih]
    by_cases h : p (f a) = true <;> simp [h]

theorem mem_insertFM {α β : Type} [DecidableEq α] {m : List (α × β)} {k : α}
    {v : β} {kv : α × β} (h : kv ∈ insertFM m k v) : kv ∈ m ∨ kv = (k, v) := by
  induction m with
  | nil => simpa [insertFM] using h
  | cons hd tl ih =>
    obtain ⟨k', v'⟩ := hd
    rw [insertFM] at h
    by_cases hk : k' = k
    · rw [if_pos hk] at h
      rcases List.mem_cons.mp h with h | h
      · right; rw [h, hk]
      · left; exact List.mem_cons_of_mem _ h
    · rw [if_neg hk] at h
      rcases List.mem_cons.mp h with h | h
      · left; simp [h]
      · rcases ih h with h' | h'
        · left; exact List.mem_cons_of_mem _ h'
        · right; exact h'

theorem foldl_insertFM_mem {α β : Type} [DecidableEq α] (key : β → α)
    (l : List β) (acc : List (α × β)) {kv : α × β}
    (h : kv ∈ l.foldl (fun m i => insertFM m (key i) i) acc) :
    kv ∈ acc ∨ ∃ i, i ∈ l ∧ kv = (key i, i) := by
  induction l generalizing acc with
  | nil => left; simpa using h
  | cons x t ih =>
    simp only [List.foldl_cons] at h
    rcases ih _ h with h' | ⟨i, hi, hkv⟩
    · rcases mem_insertFM h' with h'' | h''
      · left; exact h''
      · right; exact ⟨x, List.mem_cons_self _ _, h''⟩
    · right; exact ⟨i, List.mem_cons_of_mem _ hi, hkv⟩

theorem targetErrorDict_mem {t : QueryAnalysisResult} {kv : String × Issue}
    (h : kv ∈ targetErrorDict t) :
    kv.1 = issueKey kv.2 ∧ kv.2.severity.isError = true ∧ kv.2 ∈ t.issues := by
  rcases foldl_insertFM_mem issueKey _ [] h with h' | ⟨i, hi, hkv⟩
  · simp at h'
  · rcases List.mem_filter.mp hi with ⟨hmem, hsev⟩
    subst hkv
    exact ⟨rfl, hsev, hmem⟩

theorem deprecationMap_mem {t : QueryAnalysisResult} {kv : String × Issue}
    (h : kv ∈ deprecationMap t) :
    kv.1 = deprecationKey kv.2 ∧ kv.2.type.isDeprecation = true ∧ kv.2 ∈ t.issues := by
  rcases foldl_insertFM_mem deprecationKey _ [] h with h' | ⟨i, hi, hkv⟩
  · simp at h'
  · rcases List.mem_filter.mp hi with ⟨hmem, hdep⟩
    subst hkv
    exact ⟨rfl, hdep, hmem⟩

theorem mem_abItems {cv : String} {c : QueryAnalysisResult} {it : DiffItem}
    (h : it ∈ abItems cv c) :
    it.category = DiffCategory.alreadyBroken ∧
      ∃ i, i ∈ c.issues ∧ i.severity.isError = true ∧
        it = mkAlreadyBrokenItem cv c.query i := by
  rcases List.mem_map.mp h with ⟨i, hi, rfl⟩
  rcases List.mem_filter.mp hi with ⟨hmem, hsev⟩
  exact ⟨rfl, i, hmem, hsev, rfl⟩

theorem mem_buItems {tv : String} {c t : QueryAnalysisResult} {it : DiffItem}
    (h : it ∈ buItems tv c t) :
    it.category = DiffCategory.breaksOnUpgrade ∧
      ∃ j, it.targetIssue = some j ∧ j.severity.isError = true ∧ j ∈ t.issues ∧
        ¬ issueKey j ∈ currentErrorKeys c := by
  rcases List.mem_map.mp h with ⟨kv, hkv, rfl⟩
  rcases List.mem_filter.mp hkv with ⟨hdict, hnotin⟩
  obtain ⟨hkey, hsev, hmem⟩ := targetErrorDict_mem hdict
  refine ⟨rfl, kv.2, rfl, hsev, hmem, ?_⟩
  intro hin
  rw [← hkey] at hin
  rw [Bool.not_eq_true'] at hnotin
  simp at hnotin
  exact hnotin hin

theorem mem_dnItems {cv : String} {c : QueryAnalysisResult} {it : DiffItem}
    (h : it ∈ dnItems cv c) :
    it.category = DiffCategory.deprecatedNow ∧
      ∃ i, i ∈ c.issues ∧ i.type.isDeprecation = true ∧
        it = mkDeprecatedNowItem cv c.query i := by
  rcases List.mem_map.mp h with ⟨i, hi, rfl⟩
  rcases List.mem_filter.mp hi with ⟨hmem, hdep⟩
  exact ⟨rfl, i, hmem, hdep, rfl⟩

theorem mem_bdItems {tv : String} {c t : QueryAnalysisResult} {it : DiffItem}
    (h : it ∈ bdItems tv c t) :
    it.category = DiffCategory.becomesDeprecated ∧
      ∃ j, it.targetIssue = some j ∧ j.type.isDeprecation = true ∧ j ∈ t.issues ∧
        ¬ deprecationKey j ∈ deprecationKeys c := by
  rcases List.mem_map.mp h with ⟨kv, hkv, rfl⟩
  rcases List.mem_filter.mp hkv with ⟨hdict, hnotin⟩
  obtain ⟨hkey, hdep, hmem⟩ := deprecationMap_mem hdict
  refine ⟨rfl, kv.2, rfl, hdep, hmem, ?_⟩
  intro hin
  rw [← hkey] at hin
  rw [Bool.not_eq_true'] at hnotin
  simp at hnotin
  exact hnotin hin

theorem mem_preItems_cat {cv tv : String} {c t : QueryAnalysisResult}
    {it : DiffItem} (h : it ∈ preItems cv tv c t) :
    it.category ≠ DiffCategory.stillValid := by
  simp only [preItems, List.mem_append] at h
  rcases h with ((h | h) | h) | h
  · rw [(mem_abItems h).1]; intro hc; cases hc
  · rw [(mem_buItems h).1]; intro hc; cases hc
  · rw [(mem_dnItems h).1]; intro hc; cases hc
  · rw [(mem_bdItems h).1]; intro hc; cases hc

/-- Splitting a filter of the categorized items along the four loop outputs,
given that the predicate rejects the still_valid fallback item. -/
theorem filter_categorize_decomp (cv tv : String) (c t : QueryAnalysisResult)
    (p : DiffItem → Bool) (hsv : p (mkStillValidItem c.query) = false) :
    (categorizeQuery cv tv c t).filter p =
      (abItems cv c).filter p ++ (buItems tv c t).filter p
        ++ (dnItems cv c).filter p ++ (bdItems tv c t).filter p := by
  unfold categorizeQuery
  by_cases hpre : preItems cv tv c t = []
  · rw [if_pos hpre]
    have h4 := hpre
    unfold preItems at h4
    rcases List.append_eq_nil.mp h4 with ⟨h123, hbd⟩
    rcases List.append_eq_nil.mp h123 with ⟨h12, hdn⟩
    rcases List.append_eq_nil.mp h12 with ⟨hab, hbu⟩
    rw [hab, hbu, hdn, hbd]
    simp [List.filter_cons, hsv]
  · rw [if_neg hpre]
    unfold preItems
    simp [List.filter_append]

theorem preItems_nil_of_empty {cv tv : String} {c t : QueryAnalysisResult}
    (hc : c.issues = []) (ht : t.issues = []) : preItems cv tv c t = [] := by
  simp [preItems, abItems, buItems, dnItems, bdItems, targetErrorDict,
    deprecationMap, hc, ht]

theorem filter_filter_merge {α : Type} (p q : α → Bool) (l : List α) :
    (l.filter p).filter q = l.filter (fun a => p a && q a) := by
  induction l with
  | nil => rfl
  | cons a tl ih =>
    by_cases hp : p a = true <;> by_cases hq : q a = true <;>
      simp [List.filter_cons, hp, hq, ih]

theorem length_filter_map_filter {α β : Type} (f : α → β) (p : α → Bool)
    (P : β → Bool) (l : List α) :
    (((l.filter p).map f).filter P).length
      = (l.filter (fun a => p a && P (f a))).length := by
  induction l with
  | nil => rfl
  | cons a tl ih =>
    by_cases hp : p a = true <;> by_cases hP : P (f a) = true <;>
      simp [List.filter_cons, hp, hP, ih]

theorem isError_true_iff (s : IssueSeverity) : s.isError = true ↔ s = .error := by
  cases s <;> simp [IssueSeverity.isError]

theorem mem_currentErrorKeys {c : QueryAnalysisResult} {i : Issue}
    (hi : i ∈ c.issues) (hsev : i.severity.isError = true) :
    issueKey i ∈ currentErrorKeys c :=
  List.mem_map_of_mem _ (List.mem_filter.mpr ⟨hi, hsev⟩)

theorem mem_deprecationKeys {c : QueryAnalysisResult} {i : Issue}
    (hi : i ∈ c.issues) (hdep : i.type.isDeprecation = true) :
    deprecationKey i ∈ deprecationKeys c :=
  List.mem_map_of_mem _ (List.mem_filter.mpr ⟨hi, hdep⟩)

theorem mem_categorize {cv tv : String} {c t : QueryAnalysisResult} {it : DiffItem}
    (h : it ∈ categorizeQuery cv tv c t) :
    it = mkStillValidItem c.query ∨ it ∈ preItems cv tv c t := by
  unfold categorizeQuery at h
  by_cases hpre : preItems cv tv c t = []
  · rw [if_pos hpre] at h
    left
    simpa using h
  · rw [if_neg hpre] at h
    right
    exact h

theorem mem_preItems_split {cv tv : String} {c t : QueryAnalysisResult}
    {it : DiffItem} (h : it ∈ preItems cv tv c t) :
    it ∈ abItems cv c ∨ it ∈ buItems tv c t ∨ it ∈ dnItems cv c
      ∨ it ∈ bdItems tv c t := by
  simp only [preItems, List.mem_append] at h
  tauto

/-! ## Claim theorems -/

/-- C3: for every matched query pair, exactly one still_valid DiffItem is emitted
if and only if the already_broken, breaks_on_upgrade, deprecated_now and
becomes_deprecated checks produced no items (first conjunct, for all pairs); and
a query with zero issues in both results yields exactly the single still_valid
item and contributes exactly 1 to summary.stillValid (and to totalQueries). -/
theorem claim_C3 (cv tv : String) (c t : QueryAnalysisResult)
    (hc : c.issues = []) (ht : t.issues = []) (hq : c.query = t.query) :
    (∀ c' t' : QueryAnalysisResult,
        (((categorizeQuery cv tv c' t').filter
            (fun it => it.category = DiffCategory.stillValid)).length = 1
          ↔ (categorizeQuery cv tv c' t').filter
              (fun it => ¬ it.category = DiffCategory.stillValid) = []))
      ∧ categorizeQuery cv tv c t = [mkStillValidItem c.query]
      ∧ (diff cv tv [c] [t]).summary.stillValid = 1
      ∧ (diff cv tv [c] [t]).summary.totalQueries = 1 := by
  have hgen : ∀ c' t' : QueryAnalysisResult,
      (((categorizeQuery cv tv c' t').filter
          (fun it => it.category = DiffCategory.stillValid)).length = 1
        ↔ (categorizeQuery cv tv c' t').filter
            (fun it => ¬ it.category = DiffCategory.stillValid) = []) := by
    intro c' t'
    unfold categorizeQuery
    by_cases hpre : preItems cv tv c' t' = []
    · rw [if_pos hpre]
      simp [mkStillValidItem]
    · rw [if_neg hpre]
      have h1 : (preItems cv tv c' t').filter
          (fun it => it.category = DiffCategory.stillValid) = [] := by
        rw [List.filter_eq_nil_iff]
        intro it hit
        simpa using mem_preItems_cat hit
      have h2 : (preItems cv tv c' t').filter
          (fun it => ¬ it.category = DiffCategory.stillValid) = preItems cv tv c' t' := by
        rw [List.filter_eq_self]
        intro it hit
        simpa using mem_preItems_cat hit
      rw [h1, h2]
      simp [hpre]
  have hcat : categorizeQuery cv tv c t = [mkStillValidItem c.query] := by
    unfold categorizeQuery
    rw [if_pos (preItems_nil_of_empty hc ht)]
  refine ⟨hgen, hcat, ?_, ?_⟩ <;>
  · simp [diff, insertFM, lookupFM, hq, hcat, bumpSummary, mkStillValidItem]

/-- Witness for C3 at a concrete zero-issue pair. -/
theorem claim_C3_witness :
    (resEmptyCur.issues = [] ∧ resEmptyTar.issues = []
        ∧ resEmptyCur.query = resEmptyTar.query)
      ∧ categorizeQuery "2024-01" "2024-07" resEmptyCur resEmptyTar
          = [mkStillValidItem resEmptyCur.query]
      ∧ (diff "2024-01" "2024-07" [resEmptyCur] [resEmptyTar]).summary.stillValid = 1
      ∧ (diff "2024-01" "2024-07" [resEmptyCur] [resEmptyTar]).summary.totalQueries = 1 := by
  have h := claim_C3 "2024-01" "2024-07" resEmptyCur resEmptyTar
    (by decide) (by decide) (by decide)
  exact ⟨⟨by decide, by decide, by decide⟩, h.2.1, h.2.2.1, h.2.2.2⟩

/-- C4: an error-severity issue whose error signature (type, fieldPath, message)
is present in both results produces exactly one already_broken item carrying that
signature and never an additional breaks_on_upgrade item for it;
breaks_on_upgrade items exist only for target error signatures absent from the
current error-signature set. -/
theorem claim_C4 (cv tv : String) (c t : QueryAnalysisResult) (i : Issue)
    (hi : i ∈ c.issues) (hsev : i.severity = IssueSeverity.error)
    (hboth : ∃ j, j ∈ t.issues ∧ j.severity = IssueSeverity.error
        ∧ issueKey j = issueKey i)
    (huniq : (c.issues.filter
        (fun j => j.severity.isError && (issueKey j = issueKey i))).length = 1) :
    ((categorizeQuery cv tv c t).filter
        (fun it => it.category = DiffCategory.alreadyBroken
          ∧ it.issue.map issueKey = some (issueKey i))).length = 1
      ∧ (∀ it ∈ categorizeQuery cv tv c t,
          it.category = DiffCategory.breaksOnUpgrade →
            ¬ it.targetIssue.map issueKey = some (issueKey i))
      ∧ (∀ it ∈ categorizeQuery cv tv c t,
          it.category = DiffCategory.breaksOnUpgrade →
            ∃ j, it.targetIssue = some j ∧ ¬ issueKey j ∈ currentErrorKeys c) := by
  have hkmem : issueKey i ∈ currentErrorKeys c :=
    mem_currentErrorKeys hi ((isError_true_iff _).mpr hsev)
  refine ⟨?_, ?_, ?_⟩
  · rw [filter_categorize_decomp cv tv c t _ (by simp [mkStillValidItem])]
    have hbu : (buItems tv c t).filter
        (fun it => it.category = DiffCategory.alreadyBroken
          ∧ it.issue.map issueKey = some (issueKey i)) = [] := by
      rw [List.filter_eq_nil_iff]
      intro it hit
      simp [(mem_buItems hit).1]
    have hdn : (dnItems cv c).filter
        (fun it => it.category = DiffCategory.alreadyBroken
          ∧ it.issue.map issueKey = some (issueKey i)) = [] := by
      rw [List.filter_eq_nil_iff]
      intro it hit
      simp [(mem_dnItems hit).1]
    have hbd : (bdItems tv c t).filter
        (fun it => it.category = DiffCategory.alreadyBroken
          ∧ it.issue.map issueKey = some (issueKey i)) = [] := by
      rw [List.filter_eq_nil_iff]
      intro it hit
      simp [(mem_bdItems hit).1]
    rw [hbu, hdn, hbd]
    simp only [List.append_nil]
    unfold abItems
    rw [length_filter_map_filter]
    have hcong : ∀ j ∈ c.issues,
        (j.severity.isError && decide
          ((mkAlreadyBrokenItem cv c.query j).category = DiffCategory.alreadyBroken
            ∧ (mkAlreadyBrokenItem cv c.query j).issue.map issueKey
              = some (issueKey i)))
        = (j.severity.isError && decide (issueKey j = issueKey i)) := by
      intro j _
      have hiff : ((mkAlreadyBrokenItem cv c.query j).category
            = DiffCategory.alreadyBroken
          ∧ (mkAlreadyBrokenItem cv c.query j).issue.map issueKey
            = some (issueKey i))
          ↔ issueKey j = issueKey i := by
        simp [mkAlreadyBrokenItem]
      rw [decide_eq_decide.mpr hiff]
    rw [List.filter_congr hcong]
    exact huniq
  · intro it hit hcat hkey
    rcases mem_categorize hit with h | h
    · rw [h] at hcat
      cases hcat
    · rcases mem_preItems_split h with h' | h' | h' | h'
      · rw [(mem_abItems h').1] at hcat
        cases hcat
      · obtain ⟨-, j, hti, -, -, hnotin⟩ := mem_buItems h'
        rw [hti] at hkey
        simp only [Option.map_some', Option.some.injEq] at hkey
        rw [hkey] at hnotin
        exact hnotin hkmem
      · rw [(mem_dnItems h').1] at hcat
        cases hcat
      · rw [(mem_bdItems h').1] at hcat
        cases hcat
  · intro it hit hcat
    rcases mem_categorize hit with h | h
    · rw [h] at hcat
      cases hcat
    · rcases mem_preItems_split h with h' | h' | h' | h'
      · rw [(mem_abItems h').1] at hcat
        cases hcat
      · obtain ⟨-, j, hti, -, -, hnotin⟩ := mem_buItems h'
        exact ⟨j, hti, hnotin⟩
      · rw [(mem_dnItems h').1] at hcat
        cases hcat
      · rw [(mem_bdItems h').1] at hcat
        cases hcat

/-- Witness for C4 at a concrete pair sharing one error signature. -/
theorem claim_C4_witness :
    (valIssueBoth ∈ resBothCur.issues
        ∧ valIssueBoth.severity = IssueSeverity.error
        ∧ (∃ j, j ∈ resBothTar.issues ∧ j.severity = IssueSeverity.error
            ∧ issueKey j = issueKey valIssueBoth))
      ∧ ((categorizeQuery "2024-01" "2024-07" resBothCur resBothTar).filter
          (fun it => it.category = DiffCategory.alreadyBroken
            ∧ it.issue.map issueKey = some (issueKey valIssueBoth))).length = 1
      ∧ (∀ it ∈ categorizeQuery "2024-01" "2024-07" resBothCur resBothTar,
          it.category = DiffCategory.breaksOnUpgrade →
            ¬ it.targetIssue.map issueKey = some (issueKey valIssueBoth)) := by
  have h := claim_C4 "2024-01" "2024-07" resBothCur resBothTar valIssueBoth
    (by decide) (by decide) (by decide) (by decide)
  exact ⟨⟨by decide, by decide, by decide⟩, h.1, h.2.1⟩

/-- C5: a deprecation-kind issue present in both runs with an unchanged
(type, fieldPath) deprecation signature is never reported as becomes_deprecated;
the signature excludes reason and message text, so this holds even when those
differ between the two versions (as the witness below exhibits). -/
theorem claim_C5 (cv tv : String) (c t : QueryAnalysisResult) (i j : Issue)
    (hi : i ∈ c.issues) (hidep : i.type.isDeprecation = true)
    (hj : j ∈ t.issues) (hjdep : j.type.isDeprecation = true)
    (hkey : deprecationKey j = deprecationKey i) :
    ∀ it ∈ categorizeQuery cv tv c t,
      it.category = DiffCategory.becomesDeprecated →
        ¬ it.targetIssue.map deprecationKey = some (deprecationKey j) := by
  intro it hit hcat hk
  rcases mem_categorize hit with h | h
  · rw [h] at hcat
    cases hcat
  · rcases mem_preItems_split h with h' | h' | h' | h'
    · rw [(mem_abItems h').1] at hcat
      cases hcat
    · rw [(mem_buItems h').1] at hcat
      cases hcat
    · rw [(mem_dnItems h').1] at hcat
      cases hcat
    · obtain ⟨-, j', hti, -, -, hnotin⟩ := mem_bdItems h'
      rw [hti] at hk
      simp only [Option.map_some', Option.some.injEq] at hk
      rw [hk, hkey] at hnotin
      exact hnotin (mem_deprecationKeys hi hidep)

/-- Witness for C5: the same Shop.legacyField deprecation in both runs, with
different reason and message text across versions. -/
theorem claim_C5_witness :
    (depIssueCur ∈ resDepCur.issues ∧ depIssueCur.type.isDeprecation = true
        ∧ depIssueTar ∈ resDepTar.issues ∧ depIssueTar.type.isDeprecation = true
        ∧ deprecationKey depIssueTar = deprecationKey depIssueCur
        ∧ ¬ depIssueTar.message = depIssueCur.message
        ∧ ¬ depIssueTar.deprecationReason = depIssueCur.deprecationReason)
      ∧ ∀ it ∈ categorizeQuery "2024-01" "2024-07" resDepCur resDepTar,
          it.category = DiffCategory.becomesDeprecated →
            ¬ it.targetIssue.map deprecationKey
              = some (deprecationKey depIssueTar) := by
  exact ⟨⟨by decide, by decide, by decide, by decide, by decide, by decide,
      by decide⟩,
    claim_C5 "2024-01" "2024-07" resDepCur resDepTar depIssueCur depIssueTar
      (by decide) (by decide) (by decide) (by decide) (by decide)⟩

/-- C6: a pair whose current result holds exactly one deprecated_field warning
and no errors, and whose target result holds exactly one validation_error and no
deprecations, yields exactly one deprecated_now and one breaks_on_upgrade item
and no already_broken, becomes_deprecated or still_valid items. -/
theorem claim_C6 (cv tv : String) (c t : QueryAnalysisResult) (d v : Issue)
    (hc : c.issues = [d]) (hd1 : d.type = IssueType.deprecatedField)
    (hd2 : d.severity = IssueSeverity.warning)
    (ht : t.issues = [v]) (hv1 : v.type = IssueType.validationError)
    (hv2 : v.severity = IssueSeverity.error) :
    ((categorizeQuery cv tv c t).filter
        (fun it => it.category = DiffCategory.deprecatedNow)).length = 1
      ∧ ((categorizeQuery cv tv c t).filter
          (fun it => it.category = DiffCategory.breaksOnUpgrade)).length = 1
      ∧ (categorizeQuery cv tv c t).filter
          (fun it => it.category = DiffCategory.alreadyBroken) = []
      ∧ (categorizeQuery cv tv c t).filter
          (fun it => it.category = DiffCategory.becomesDeprecated) = []
      ∧ (categorizeQuery cv tv c t).filter
          (fun it => it.category = DiffCategory.stillValid) = [] := by
  have hab : abItems cv c = [] := by
    simp [abItems, hc, hd2, IssueSeverity.isError]
  have hdnl : dnItems cv c = [mkDeprecatedNowItem cv c.query d] := by
    simp [dnItems, hc, hd1, IssueType.isDeprecation]
  have hted : targetErrorDict t = [(issueKey v, v)] := by
    simp [targetErrorDict, ht, hv2, IssueSeverity.isError, insertFM]
  have hcek : currentErrorKeys c = [] := by
    simp [currentErrorKeys, hc, hd2, IssueSeverity.isError]
  have hbu : buItems tv c t = [mkBreaksOnUpgradeItem tv c.query v] := by
    simp [buItems, hted, hcek]
  have hdm : deprecationMap t = [] := by
    simp [deprecationMap, ht, hv1, IssueType.isDeprecation]
  have hbd : bdItems tv c t = [] := by
    simp [bdItems, hdm]
  have hpre : preItems cv tv c t
      = [mkBreaksOnUpgradeItem tv c.query v, mkDeprecatedNowItem cv c.query d] := by
    simp [preItems, hab, hbu, hdnl, hbd]
  have hcatq : categorizeQuery cv tv c t
      = [mkBreaksOnUpgradeItem tv c.query v, mkDeprecatedNowItem cv c.query d] := by
    unfold categorizeQuery
    rw [if_neg (by simp [hpre]), hpre]
  refine ⟨?_, ?_, ?_, ?_, ?_⟩ <;>
    simp [hcatq, mkBreaksOnUpgradeItem, mkDeprecatedNowItem, List.filter_cons]

/-- Witness for C6: the spec's Scenario B shape (deprecated in current, removed
in target). -/
theorem claim_C6_witness :
    (resDepCur.issues = [depIssueCur]
        ∧ depIssueCur.type = IssueType.deprecatedField
        ∧ depIssueCur.severity = IssueSeverity.warning
        ∧ resValTar.issues = [valIssueTar]
        ∧ valIssueTar.type = IssueType.validationError
        ∧ valIssueTar.severity = IssueSeverity.error)
      ∧ ((categorizeQuery "2024-01" "2024-07" resDepCur resValTar).filter
          (fun it => it.category = DiffCategory.deprecatedNow)).length = 1
      ∧ ((categorizeQuery "2024-01" "2024-07" resDepCur resValTar).filter
          (fun it => it.category = DiffCategory.breaksOnUpgrade)).length = 1
      ∧ (categorizeQuery "2024-01" "2024-07" resDepCur resValTar).filter
          (fun it => it.category = DiffCategory.alreadyBroken) = []
      ∧ (categorizeQuery "2024-01" "2024-07" resDepCur resValTar).filter
          (fun it => it.category = DiffCategory.becomesDeprecated) = [] := by
  have h := claim_C6 "2024-01" "2024-07" resDepCur resValTar depIssueCur
    valIssueTar (by decide) (by decide) (by decide) (by decide) (by decide)
    (by decide)
  exact ⟨⟨by decide, by decide, by decide, by decide, by decide, by decide⟩,
    h.1, h.2.1, h.2.2.1, h.2.2.2.1⟩

end SQA

namespace SQA

theorem mkSyntaxErrorIssue_loc (ver : Option String) (q : ExtractedQuery)
    (msg : String) (loc : Option (Int × Int)) :
    ((mkSyntaxErrorIssue ver q msg loc).line,
      (mkSyntaxErrorIssue ver q msg loc).column) = specAbsLoc q loc := by
  cases loc with
  | none => rfl
  | some p => obtain ⟨l, c⟩ := p; rfl

theorem mkValidationErrorIssue_loc (ver : Option String) (q : ExtractedQuery)
    (e : String × Option (Int × Int)) :
    ((mkValidationErrorIssue ver q e).line,
      (mkValidationErrorIssue ver q e).column) = specAbsLoc q e.2 := by
  obtain ⟨msg, loc⟩ := e
  cases loc with
  | none => rfl
  | some p => obtain ⟨l, c⟩ := p; rfl

theorem mkDeprecationIssue_loc (ver : Option String) (q : ExtractedQuery)
    (h : DepHit) :
    ((mkDeprecationIssue ver q h).line,
      (mkDeprecationIssue ver q h).column) = specAbsLoc q h.loc := by
  rcases h with ⟨k, n, r, loc⟩
  cases loc with
  | none => rfl
  | some p => obtain ⟨l, c⟩ := p; rfl

theorem mkSyntaxErrorIssue_severity (ver : Option String) (q : ExtractedQuery)
    (msg : String) (loc : Option (Int × Int)) :
    (mkSyntaxErrorIssue ver q msg loc).severity = IssueSeverity.error := by
  cases loc with
  | none => rfl
  | some p => obtain ⟨l, c⟩ := p; rfl

theorem mkSyntaxErrorIssue_type (ver : Option String) (q : ExtractedQuery)
    (msg : String) (loc : Option (Int × Int)) :
    (mkSyntaxErrorIssue ver q msg loc).type = IssueType.syntaxError := by
  cases loc with
  | none => rfl
  | some p => obtain ⟨l, c⟩ := p; rfl

theorem mkValidationErrorIssue_severity (ver : Option String)
    (q : ExtractedQuery) (e : String × Option (Int × Int)) :
    (mkValidationErrorIssue ver q e).severity = IssueSeverity.error := by
  obtain ⟨msg, loc⟩ := e
  cases loc with
  | none => rfl
  | some p => obtain ⟨l, c⟩ := p; rfl

theorem mkValidationErrorIssue_type (ver : Option String)
    (q : ExtractedQuery) (e : String × Option (Int × Int)) :
    (mkValidationErrorIssue ver q e).type = IssueType.validationError := by
  obtain ⟨msg, loc⟩ := e
  cases loc with
  | none => rfl
  | some p => obtain ⟨l, c⟩ := p; rfl

theorem mkDeprecationIssue_severity (ver : Option String) (q : ExtractedQuery)
    (h : DepHit) :
    (mkDeprecationIssue ver q h).severity = IssueSeverity.warning := by
  rcases h with ⟨k, n, r, loc⟩
  cases loc with
  | none => rfl
  | some p => obtain ⟨l, c⟩ := p; rfl

theorem mkDeprecationIssue_type (ver : Option String) (q : ExtractedQuery)
    (h : DepHit) :
    (mkDeprecationIssue ver q h).type = h.kind.toIssueType := by
  rcases h with ⟨k, n, r, loc⟩
  cases loc with
  | none => rfl
  | some p => obtain ⟨l, c⟩ := p; rfl

theorem depKind_type_not_error (k : DepKind) :
    ¬ (k.toIssueType = IssueType.syntaxError
        ∨ k.toIssueType = IssueType.validationError) := by
  cases k <;> simp [DepKind.toIssueType]

theorem countP_map_true {α β : Type} (f : α → β) (p : β → Bool) (l : List α)
    (h : ∀ a, p (f a) = true) : (l.map f).countP p = l.length := by
  induction l with
  | nil => rfl
  | cons a tl ih => simp [List.countP_cons, h, ih]

theorem countP_map_false {α β : Type} (f : α → β) (p : β → Bool) (l : List α)
    (h : ∀ a, p (f a) = false) : (l.map f).countP p = 0 := by
  induction l with
  | nil => rfl
  | cons a tl ih => simp [List.countP_cons, h, ih]

/-- C7: every issue of every analysis phase carries absolute coordinates given by
the shared mapping: absoluteLine = startLine + relativeLine - 1; absoluteCol =
relativeCol when relativeLine > 1, else startCol + relativeCol - 1; and the
fallback (startLine, startCol) when the capability reports no location. -/
theorem claim_C7 :
    (∀ (ver : Option String) (q : ExtractedQuery) (msg : String)
        (loc : Option (Int × Int)),
        ((mkSyntaxErrorIssue ver q msg loc).line,
          (mkSyntaxErrorIssue ver q msg loc).column) = specAbsLoc q loc)
      ∧ (∀ (ver : Option String) (q : ExtractedQuery)
          (e : String × Option (Int × Int)),
          ((mkValidationErrorIssue ver q e).line,
            (mkValidationErrorIssue ver q e).column) = specAbsLoc q e.2)
      ∧ (∀ (ver : Option String) (q : ExtractedQuery) (h : DepHit),
          ((mkDeprecationIssue ver q h).line,
            (mkDeprecationIssue ver q h).column) = specAbsLoc q h.loc)
      ∧ (∀ (rl rc : Int) (q : ExtractedQuery),
          specAbsLoc q (some (rl, rc))
            = (q.startLine + rl - 1,
               if 1 < rl then rc else q.startCol + rc - 1)
            ∧ specAbsLoc q none = (q.startLine, q.startCol))
      ∧ (∀ (cap : GqlCap) (ver : Option String) (q : ExtractedQuery),
          ∀ i ∈ (analyze cap ver q).issues,
            ∃ loc, (i.line, i.column) = specAbsLoc q loc) := by
  refine ⟨mkSyntaxErrorIssue_loc, mkValidationErrorIssue_loc,
    mkDeprecationIssue_loc, fun rl rc q => ⟨rfl, rfl⟩, ?_⟩
  intro cap ver q i hi
  rcases hp : cap.parse q.content with _ | ⟨msg, loc⟩ <;>
    simp only [analyze, hp] at hi
  · rcases List.mem_append.mp hi with h | h
    · rcases List.mem_map.mp h with ⟨e, _, rfl⟩
      exact ⟨e.2, mkValidationErrorIssue_loc ver q e⟩
    · rcases List.mem_map.mp h with ⟨d, _, rfl⟩
      exact ⟨d.loc, mkDeprecationIssue_loc ver q d⟩
  · rcases List.mem_singleton.mp hi with rfl
    exact ⟨loc, mkSyntaxErrorIssue_loc ver q msg loc⟩

/-- Witness for C7 at a concrete capability report: relative (2, 7) on a query
starting at line 5 maps to absolute line 6, column 7. -/
theorem claim_C7_witness :
    (mkValidationErrorIssue (some "2024-01") sampleQuery
        ("Cannot query field legacyField on type Shop", some (2, 7))
      ∈ (analyze sampleCap (some "2024-01") sampleQuery).issues)
      ∧ ∃ loc,
          ((mkValidationErrorIssue (some "2024-01") sampleQuery
              ("Cannot query field legacyField on type Shop", some (2, 7))).line,
            (mkValidationErrorIssue (some "2024-01") sampleQuery
              ("Cannot query field legacyField on type Shop", some (2, 7))).column)
            = specAbsLoc sampleQuery loc := by
  refine ⟨by decide, ?_⟩
  exact claim_C7.2.2.2.2 sampleCap (some "2024-01") sampleQuery _ (by decide)

/-- C10: analyze marks a result valid exactly when it produced no error-severity
issue; syntax and validation issues are exactly the error-severity ones, and
deprecation issues (warnings) never affect validity. -/
theorem claim_C10 (cap : GqlCap) (ver : Option String) (q : ExtractedQuery) :
    ((analyze cap ver q).isValid = true ↔ (analyze cap ver q).errorCount = 0)
      ∧ (∀ i ∈ (analyze cap ver q).issues,
          (i.severity = IssueSeverity.error
            ↔ (i.type = IssueType.syntaxError
                ∨ i.type = IssueType.validationError))) := by
  rcases hp : cap.parse q.content with _ | ⟨msg, loc⟩
  · constructor
    · simp only [analyze, hp, QueryAnalysisResult.errorCount, List.countP_append]
      rw [countP_map_true _ _ _ (fun e => by
          rw [(isError_true_iff _).mpr (mkValidationErrorIssue_severity ver q e)]),
        countP_map_false _ _ _ (fun d => by
          rw [mkDeprecationIssue_severity ver q d]; rfl)]
      simp [List.isEmpty_iff_length_eq_zero]
    · intro i hi
      simp only [analyze, hp] at hi
      rcases List.mem_append.mp hi with h | h
      · rcases List.mem_map.mp h with ⟨e, _, rfl⟩
        simp [mkValidationErrorIssue_severity, mkValidationErrorIssue_type]
      · rcases List.mem_map.mp h with ⟨d, _, rfl⟩
        rw [mkDeprecationIssue_severity, mkDeprecationIssue_type]
        simp only [iff_iff_implies_and_implies]
        constructor
        · intro hw; cases hw
        · intro hk; exact absurd hk (depKind_type_not_error d.kind)
  · constructor
    · simp only [analyze, hp, QueryAnalysisResult.errorCount]
      rw [List.countP_cons]
      simp [(isError_true_iff _).mpr (mkSyntaxErrorIssue_severity ver q msg loc)]
    · intro i hi
      simp only [analyze, hp] at hi
      rcases List.mem_singleton.mp hi with rfl
      simp [mkSyntaxErrorIssue_severity, mkSyntaxErrorIssue_type]

/-- Witness for C10 at a concrete capability with one validation error and one
deprecation warning. -/
theorem claim_C10_witness :
    ((analyze sampleCap (some "2024-01") sampleQuery).isValid = true
        ↔ (analyze sampleCap (some "2024-01") sampleQuery).errorCount = 0)
      ∧ (mkDeprecationIssue (some "2024-01") sampleQuery
            { kind := .field, name := "Shop.legacyField", reason := "Use newField",
              loc := none }
          ∈ (analyze sampleCap (some "2024-01") sampleQuery).issues)
      ∧ ((mkDeprecationIssue (some "2024-01") sampleQuery
            { kind := .field, name := "Shop.legacyField", reason := "Use newField",
              loc := none }).severity = IssueSeverity.error
          ↔ ((mkDeprecationIssue (some "2024-01") sampleQuery
              { kind := .field, name := "Shop.legacyField",
                reason := "Use newField", loc := none }).type
                = IssueType.syntaxError
            ∨ (mkDeprecationIssue (some "2024-01") sampleQuery
              { kind := .field, name := "Shop.legacyField",
                reason := "Use newField", loc := none }).type
                = IssueType.validationError)) := by
  have h := claim_C10 sampleCap (some "2024-01") sampleQuery
  exact ⟨h.1, by decide, h.2 _ (by decide)⟩

end SQA

namespace SQA

/-! ## Extractor helper lemmas -/

/-- Evaluation of extraction on the spec's Scenario C file: one leaf query for
QUERY, with the interpolation placeholder left verbatim (the plain backtick
FRAGMENT template matches neither pattern, so the fragment map holds only QUERY
and the substitution finds no binding for FRAGMENT). -/
theorem tsExtract_scenarioC :
    tsExtract [] noResolver "f.ts" scenarioCContent = .ok [scenarioCQuery] := by
  have hb : buildFragmentMap [] noResolver "f.ts" scenarioCContent [] =
      .ok [(("QUERY").data,
        ("query Q \x7b shop \x7b ...$\x7bFRAGMENT\x7d \x7d \x7d\n").data)] := by
    rw [buildFragmentMap]
    rw [show parseImports scenarioCContent = [] from by decide]
    rw [bfmImports]
    decide
  unfold tsExtract
  rw [hb]
  decide

theorem phpStep_mem {filePath : String} {content : List Char}
    {acc : List ExtractedQuery} {m : ReMatch} {q : ExtractedQuery}
    (h : q ∈ phpStep filePath content acc m) :
    q ∈ acc ∨ (q.startCol = 1
      ∧ q.startLine = Int.ofNat (countNl (content.take m.start) + 2)) := by
  unfold phpStep at h
  split at h
  · split at h
    · rcases List.mem_append.mp h with h' | h'
      · left; exact h'
      · rcases List.mem_singleton.mp h' with rfl
        right; exact ⟨rfl, rfl⟩
    · left; exact h
  · left; exact h

theorem phpExtract_mem {filePath : String} {content : List Char}
    {q : ExtractedQuery} (h : q ∈ phpExtract filePath content) :
    q.startCol = 1
      ∧ ∃ m ∈ heredocFinditer content ++ nowdocFinditer content,
          q.startLine = Int.ofNat (countNl (content.take m.start) + 2) := by
  have haux : ∀ (ms : List ReMatch) (acc : List ExtractedQuery),
      q ∈ ms.foldl (phpStep filePath content) acc →
      q ∈ acc ∨ ∃ m ∈ ms, q.startCol = 1
        ∧ q.startLine = Int.ofNat (countNl (content.take m.start) + 2) := by
    intro ms
    induction ms with
    | nil => intro acc h'; left; simpa using h'
    | cons m ms ih =>
      intro acc h'
      rw [List.foldl_cons] at h'
      rcases ih _ h' with h'' | ⟨m', hm', hp⟩
      · rcases phpStep_mem h'' with h3 | h3
        · left; exact h3
        · right; exact ⟨m, List.mem_cons_self _ _, h3⟩
      · right; exact ⟨m', List.mem_cons_of_mem _ hm', hp⟩
  rcases haux _ _ h with h' | ⟨m, hm, h1, h2⟩
  · simp at h'
  · exact ⟨h1, m, hm, h2⟩

theorem tsEmit_mem {rf : Bool} {rv : List (List Char)}
    {fm : List (List Char × List Char)} {filePath : String} {content : List Char}
    {acc : List ExtractedQuery} {m : ReMatch} {varName queryContent : List Char}
    {q : ExtractedQuery}
    (hq : q ∈ tsEmit rf rv fm filePath content acc m varName queryContent) :
    q ∈ acc ∨ (q.startCol = 1
      ∧ q.startLine = Int.ofNat (countNl (content.take m.start) + 2)) := by
  unfold tsEmit at hq
  split at hq
  · left; exact hq
  · split at hq
    · left; exact hq
    · split at hq
      · left; exact hq
      · rcases List.mem_append.mp hq with h' | h'
        · left; exact h'
        · rcases List.mem_singleton.mp h' with rfl
          right; exact ⟨rfl, rfl⟩

theorem tsStep_ok_mem {rf : Bool} {rv : List (List Char)}
    {fm : List (List Char × List Char)} {filePath : String} {content : List Char}
    {acc out : List ExtractedQuery} {m : ReMatch} {q : ExtractedQuery}
    (h : tsStep rf rv fm filePath content acc m = .ok out) (hq : q ∈ out) :
    q ∈ acc ∨ (q.startCol = 1
      ∧ q.startLine = Int.ofNat (countNl (content.take m.start) + 2)) := by
  unfold tsStep at h
  simp only [Bind.bind] at h
  cases hg1 : m.group 1 with
  | error e => rw [hg1] at h; simp [Except.bind] at h
  | ok varName =>
    rw [hg1] at h
    simp only [Except.bind] at h
    cases hg2 : m.group 2 with
    | error e => rw [hg2] at h; simp [Except.bind] at h
    | ok queryContent =>
      rw [hg2] at h
      simp only [Except.bind, pure, Except.pure] at h
      cases h
      exact tsEmit_mem hq

theorem tsFold_ok_mem {rf : Bool} {rv : List (List Char)}
    {fm : List (List Char × List Char)} {filePath : String}
    {content : List Char} :
    ∀ (ms : List ReMatch) (acc out : List ExtractedQuery),
      ms.foldlM (tsStep rf rv fm filePath content) acc = .ok out →
      ∀ q ∈ out, q ∈ acc ∨ ∃ m ∈ ms, q.startCol = 1
        ∧ q.startLine = Int.ofNat (countNl (content.take m.start) + 2) := by
  intro ms
  induction ms with
  | nil =>
    intro acc out h q hq
    left
    cases h
    exact hq
  | cons m ms ih =>
    intro acc out h q hq
    rw [List.foldlM_cons] at h
    simp only [Bind.bind] at h
    cases hs : tsStep rf rv fm filePath content acc m with
    | error e => rw [hs] at h; simp [Except.bind] at h
    | ok acc' =>
      rw [hs] at h
      simp only [Except.bind] at h
      rcases ih acc' out h q hq with h' | ⟨m', hm', hp⟩
      · rcases tsStep_ok_mem hs h' with h'' | h''
        · left; exact h''
        · right; exact ⟨m, List.mem_cons_self _ _, h''⟩
      · right; exact ⟨m', List.mem_cons_of_mem _ hm', hp⟩

end SQA

namespace SQA

/-- C1 (refutation at the failing input): a TypeScript file whose gql-tagged
template is matched by GRAPHQL_GQL_PATTERN makes extract fail instead of
returning a list: pass 1 (_find_referenced_variables) reads match.group(2) of
the single-group pattern, an IndexError in the source, which propagates out of
extract - contradicting the never-throws contract the claim states. -/
theorem claim_C1 :
    gqlFinditer gqlFileContent ≠ []
      ∧ (gqlFinditer gqlFileContent).map (fun m => m.groups.length) = [1]
      ∧ tsExtract [] noResolver "app/q.ts" gqlFileContent = .error ()
      ∧ findReferencedVariables gqlFileContent = .error () := by
  refine ⟨by decide, by decide, ?_, by decide⟩
  rfl

/-- C2 (counterexample): on the spec's Scenario C file the single extracted
query still contains the interpolation placeholder verbatim and does not contain
the fragment body, refuting the claimed substitution of the placeholder by the
body of the plain backtick FRAGMENT template. -/
theorem claim_C2_counterexample :
    tsExtract [] noResolver "f.ts" scenarioCContent = .ok [scenarioCQuery]
      ∧ containsSub scenarioCQuery.content (("$\x7bFRAGMENT\x7d").data) = true
      ∧ containsSub scenarioCQuery.content (("fragment F on Shop").data) = false := by
  exact ⟨tsExtract_scenarioC, by decide, by decide⟩

/-- C2 (amended): extraction of the Scenario C file yields exactly one leaf
ExtractedQuery, for QUERY, and zero standalone entries for FRAGMENT (a block
referenced via interpolation in its own file is never emitted standalone), but
the placeholder is left verbatim in the leaf's content - a plain backtick
template without a recognized tag is not entered into the fragment map and
unresolved placeholders are left in place by design. -/
theorem claim_C2 :
    tsExtract [] noResolver "f.ts" scenarioCContent = .ok [scenarioCQuery]
      ∧ scenarioCQuery.identifier = ("QUERY").data
      ∧ scenarioCQuery.content
          = ("query Q \x7b shop \x7b ...$\x7bFRAGMENT\x7d \x7d \x7d\n").data
      ∧ (tsExtract [] noResolver "f.ts" scenarioCContent).map
          (fun qs => qs.countP (fun q => q.identifier = ("FRAGMENT").data))
        = .ok 0
      ∧ (tsExtract [] noResolver "f.ts" scenarioCContent).map
          (fun qs => qs.length) = .ok 1 := by
  refine ⟨tsExtract_scenarioC, by decide, by decide, ?_, ?_⟩ <;>
    rw [tsExtract_scenarioC] <;> decide

/-- C8 (counterexample): in a PHP file whose heredoc opens at 0-based offset 5
(column 6), the single emitted query carries startCol 1, not the column derived
from the offset since the last newline - the computed column is discarded and 1
is hard-coded. -/
theorem claim_C8_counterexample :
    (phpExtract "q.php" phpFileContent).map (fun q => q.startCol) = [1]
      ∧ (heredocFinditer phpFileContent).map (fun m => m.start) = [5]
      ∧ (heredocFinditer phpFileContent).map
          (fun m => specColOf phpFileContent m.start) = [6]
      ∧ ¬ ((phpExtract "q.php" phpFileContent).map (fun q => q.startCol)
            = (heredocFinditer phpFileContent).map
                (fun m => (specColOf phpFileContent m.start : Int))) := by
  refine ⟨by decide, by decide, by decide, by decide⟩

/-- C8 (amended): for every block located by the PHP or TypeScript recognizer,
the emitted query's absolute start line is the newline count in the content
preceding the match start plus two (the body begins on the following line), and
its startCol is always the hard-coded 1 (the column derived from the offset
since the last newline is computed but discarded). -/
theorem claim_C8 (filePath : String) (content : List Char) :
    (∀ q ∈ phpExtract filePath content,
        q.startCol = 1
          ∧ ∃ m ∈ heredocFinditer content ++ nowdocFinditer content,
              q.startLine = Int.ofNat (countNl (content.take m.start) + 2))
      ∧ (∀ (fs : List (String × List Char))
          (resolver : List Char → String → Option String) (b : Bool)
          (qs : List ExtractedQuery),
          tsExtract fs resolver filePath content b = .ok qs →
            ∀ q ∈ qs, q.startCol = 1
              ∧ ∃ m ∈ templateFinditer content ++ gqlFinditer content,
                  q.startLine = Int.ofNat (countNl (content.take m.start) + 2)) := by
  constructor
  · intro q hq
    exact phpExtract_mem hq
  · intro fs resolver b qs h q hq
    unfold tsExtract at h
    simp only [Bind.bind] at h
    cases hrv : findReferencedVariables content with
    | error e => rw [hrv] at h; simp [Except.bind] at h
    | ok rv =>
      rw [hrv] at h
      simp only [Except.bind] at h
      cases b with
      | false =>
        rw [if_neg Bool.false_ne_true] at h
        have h' : (templateFinditer content ++ gqlFinditer content).foldlM
            (tsStep false rv [] filePath content) [] = Except.ok qs := h
        rcases tsFold_ok_mem _ _ _ h' q hq with h'' | ⟨m, hm, hp⟩
        · simp at h''
        · exact ⟨hp.1, m, hm, hp.2⟩
      | true =>
        rw [if_pos rfl] at h
        cases hbm : buildFragmentMap fs resolver filePath content [] with
        | error e =>
          rw [hbm] at h
          simp at h
        | ok fm =>
          rw [hbm] at h
          have h' : (templateFinditer content ++ gqlFinditer content).foldlM
              (tsStep true rv fm filePath content) [] = Except.ok qs := h
          rcases tsFold_ok_mem _ _ _ h' q hq with h'' | ⟨m, hm, hp⟩
          · simp at h''
          · exact ⟨hp.1, m, hm, hp.2⟩

/-- Witness for C8 at the concrete PHP file. -/
theorem claim_C8_witness :
    (phpQuery ∈ phpExtract "q.php" phpFileContent)
      ∧ phpQuery.startCol = 1
      ∧ ∃ m ∈ heredocFinditer phpFileContent ++ nowdocFinditer phpFileContent,
          phpQuery.startLine
            = Int.ofNat (countNl (phpFileContent.take m.start) + 2) := by
  refine ⟨by decide, ?_⟩
  exact (claim_C8 "q.php" phpFileContent).1 phpQuery (by decide)

/-- C9: fragment resolution always terminates and fails closed: a file already
in the branch-local visited set immediately yields an empty map for that branch
(this guard is what makes the recursion well-founded for any cyclic import
graph; in this embedding build_fragment_map is total, its measure being the
unvisited filesystem domain, which the branch-local copy-on-extend visited set
shrinks on every recursion), and interpolation substitution is bounded by the
explicit depth counter: at depth 0 the content is returned untouched, and a
self-referential interpolation or an unknown variable leaves the placeholder
text verbatim after the default 10 rounds rather than looping. -/
theorem claim_C9 :
    (∀ (fs : List (String × List Char))
        (resolver : List Char → String → Option String) (p : String)
        (c : List Char) (visited : List String), p ∈ visited →
        buildFragmentMap fs resolver p c visited = .ok [])
      ∧ (∀ (fm : List (List Char × List Char)) (content : List Char),
          resolveInterpolations fm 0 content = content)
      ∧ resolveInterpolations [(("A").data, ("$\x7bA\x7d").data)] 10
          (("$\x7bA\x7d").data) = ("$\x7bA\x7d").data
      ∧ resolveInterpolations [] 10 (("$\x7bX\x7d").data)
          = ("$\x7bX\x7d").data := by
  refine ⟨?_, ?_, by decide, by decide⟩
  · intro fs resolver p c visited h
    rw [buildFragmentMap]
    simp [h]
  · intro fm content
    rfl

/-- Witness for C9 at a concrete revisited file. -/
theorem claim_C9_witness :
    ("x.ts" ∈ ["x.ts"])
      ∧ buildFragmentMap [] noResolver "x.ts" [] ["x.ts"] = .ok [] := by
  exact ⟨by decide,
    claim_C9.1 [] noResolver "x.ts" [] ["x.ts"] (by decide)⟩

end SQA
